import Mathlib

/-!
Verification of the OPL (OSM Protocol Line) parser of this repository,
a shallow embedding of
`third_party/libosmium/include/osmium/io/detail/opl_parser_functions.hpp`.

A line is a zero-terminated byte buffer; we model it as a `List Nat` of its
bytes (no interior NUL), and a cursor is an index into that list.  Reading at
or past the end of the list yields the terminating NUL (byte 0), exactly as
reading the terminator of the C buffer.  The C code advances `const char**`
cursors; here every scanner takes the line and a position and returns the new
position.  Errors (`throw opl_error{msg, cursor}`) become `Except Err`, where
`Err.data` is the optional offending cursor, as in the C struct.

Loops that the C code bounds only by the terminating NUL take an explicit
`fuel : Nat` argument (structural recursion); the top-level line dispatcher
supplies `line.length + 2`, which is more than any loop can consume since
every iteration advances the cursor by at least one byte and the cursor never
moves past the terminator.  Counter-bounded loops (the 16-digit integer limit,
the 8-digit escape limit) recurse on their own counter, as the C code does.
-/

deriving instance DecidableEq for Except

namespace Opl

/-- Byte at a cursor position; at or past the end of the line this is the
terminating NUL, byte 0 (the C buffer is zero-terminated). -/
def peek (line : List Nat) (pos : Nat) : Nat := line.getD pos 0

/-- The error thrown by the OPL scanners: `opl_error{what, data}`, where
`data` is the offending cursor or null.  (The C type prefixes the message
with "OPL error: " in `what()`; `msg` here is the raw message argument.) -/
structure Err where
  msg : String
  data : Option Nat := none
  deriving Repr, DecidableEq

/-! ## Scalar scanners (`opl_parse_space`, `opl_non_empty`, `opl_skip_section`) -/

/-- The trailing `while (**s == ' ' || **s == '\t') ++*s;` of
`opl_parse_space`. -/
def opl_skip_ws (line : List Nat) : Nat → Nat → Nat
  | 0, pos => pos
  | fuel + 1, pos =>
    if peek line pos = 32 ∨ peek line pos = 9 then opl_skip_ws line fuel (pos + 1)
    else pos

/-- `opl_parse_space`: at least one space (32) or tab (9), then greedily
consume further spaces and tabs. -/
def opl_parse_space (line : List Nat) (fuel pos : Nat) : Except Err Nat :=
  if peek line pos ≠ 32 ∧ peek line pos ≠ 9 then
    .error ⟨"expected space or tab character", some pos⟩
  else
    .ok (opl_skip_ws line fuel (pos + 1))

/-- `opl_non_empty`: the cursor points at something other than NUL, space or
tab. -/
def opl_non_empty (line : List Nat) (pos : Nat) : Bool :=
  decide (peek line pos ≠ 0) && decide (peek line pos ≠ 32) && decide (peek line pos ≠ 9)

/-- `opl_skip_section`: advance to the next NUL, space or tab and return that
position. -/
def opl_skip_section (line : List Nat) : Nat → Nat → Nat
  | 0, pos => pos
  | fuel + 1, pos =>
    if opl_non_empty line pos then opl_skip_section line fuel (pos + 1)
    else pos

/-! ## Percent escapes (`opl_parse_escaped`) -/

/-- Value of an ASCII hex digit byte, `none` for anything else.  Mirrors the
three digit ranges tested by `opl_parse_escaped`. -/
def hexDigitValue (b : Nat) : Option Nat :=
  if 48 ≤ b ∧ b ≤ 57 then some (b - 48)
  else if 97 ≤ b ∧ b ≤ 102 then some (b - 97 + 10)
  else if 65 ≤ b ∧ b ≤ 70 then some (b - 65 + 10)
  else none

/-- Modelled from the spec: `append_codepoint_as_utf8` of
`osmium/io/detail/string_util.hpp`, which is not under `src/`.  The spec says
the accumulated codepoint "is encoded as UTF-8 (1-4 bytes for valid Unicode
scalar values) and appended to the output string"; this is the standard UTF-8
encoder on code points. -/
def append_codepoint_as_utf8 (cp : Nat) : List Nat :=
  if cp < 128 then [cp]
  else if cp < 2048 then [192 + cp / 64, 128 + cp % 64]
  else if cp < 65536 then [224 + cp / 4096, 128 + (cp / 64) % 64, 128 + cp % 64]
  else [240 + cp / 262144, 128 + (cp / 4096) % 64, 128 + (cp / 64) % 64, 128 + cp % 64]

/-- The digit loop of `opl_parse_escaped`: `while (++length <= max_length)`
with `max_length = 8`.  `fuel` is the number of loop iterations still allowed
(`max_length - length + 1`); the top-level entry uses 8.  The accumulator is a
C `uint32_t`, hence the reduction mod 2^32 on each shift-and-add. -/
def opl_parse_escaped_go (line : List Nat) : Nat → Nat → Nat → Except Err (Nat × Nat)
  | 0, pos, _ => .error ⟨"hex escape too long", some pos⟩
  | fuel + 1, pos, value =>
    if peek line pos = 0 then .error ⟨"eol", some pos⟩
    else if peek line pos = 37 then .ok (value, pos + 1)
    else
      match hexDigitValue (peek line pos) with
      | some d => opl_parse_escaped_go line fuel (pos + 1) ((value * 16 + d) % 4294967296)
      | none => .error ⟨"not a hex char", some pos⟩

/-- `opl_parse_escaped`: read up to 8 hex digits terminated by `%` (37) and
append the UTF-8 encoding of the accumulated codepoint.  Returns the bytes to
append and the position past the terminating `%`. -/
def opl_parse_escaped (line : List Nat) (pos : Nat) : Except Err (List Nat × Nat) :=
  match opl_parse_escaped_go line 8 pos 0 with
  | .ok (value, p) => .ok (append_codepoint_as_utf8 value, p)
  | .error e => .error e

/-! ## Strings (`opl_parse_string`) -/

/-- The loop of `opl_parse_string`: append bytes to `result` until NUL, space,
tab, `,` (44) or `=` (61); `%` (37) triggers the escape decoder; every other
byte is copied verbatim.  The terminator is not consumed. -/
def opl_parse_string_go (line : List Nat) : Nat → Nat → List Nat → Except Err (List Nat × Nat)
  | 0, pos, result => .ok (result, pos)
  | fuel + 1, pos, result =>
    if peek line pos = 0 ∨ peek line pos = 32 ∨ peek line pos = 9 ∨
        peek line pos = 44 ∨ peek line pos = 61 then
      .ok (result, pos)
    else if peek line pos = 37 then
      match opl_parse_escaped line (pos + 1) with
      | .ok (app, p) => opl_parse_string_go line fuel p (result ++ app)
      | .error e => .error e
    else
      opl_parse_string_go line fuel (pos + 1) (result ++ [peek line pos])

/-- `opl_parse_string` on an initially empty result buffer (every call site in
the source passes a fresh or cleared `std::string`). -/
def opl_parse_string (line : List Nat) (fuel pos : Nat) : Except Err (List Nat × Nat) :=
  opl_parse_string_go line fuel pos []

/-! ## Bounded integers (`opl_parse_int`) -/

/-- The digit loop of `opl_parse_int`.  The C counter `n` starts at
`max_int_len = 16` and is pre-decremented on each digit; when it reaches 0 the
parser throws "integer too long" with the cursor at that digit.  Returns the
accumulated value, the final counter and the final position.  (The C loop is
never entered with `n = 0`; that case is mapped to the same throw.) -/
def opl_parse_int_go (line : List Nat) : Nat → Nat → Int → Except Err (Int × Nat × Nat)
  | n, pos, value =>
    if 48 ≤ peek line pos ∧ peek line pos ≤ 57 then
      match n with
      | 0 => .error ⟨"integer too long", some pos⟩
      | 1 => .error ⟨"integer too long", some pos⟩
      | m + 2 => opl_parse_int_go line (m + 1) (pos + 1)
          (value * 10 + ((peek line pos : Int) - 48))
    else
      .ok (value, n, pos)

/-- `opl_parse_int<T>`: optional leading `-` (45), then up to 15 decimal
digits accumulated in a signed 64-bit register, finally narrowed to the target
type with bounds `tmin`/`tmax` (`std::numeric_limits<T>::min()/max()`).
The C code checks only the lower bound after negation and only the upper bound
for non-negative results, exactly as mirrored here. -/
def opl_parse_int (tmin tmax : Int) (line : List Nat) (pos : Nat) : Except Err (Int × Nat) :=
  if peek line pos = 0 then .error ⟨"expected integer", some pos⟩
  else
    let negative := peek line pos = 45
    let pos1 := if negative then pos + 1 else pos
    match opl_parse_int_go line 16 pos1 0 with
    | .error e => .error e
    | .ok (value, n, pos2) =>
      if n = 16 then .error ⟨"expected integer", some pos2⟩
      else if negative then
        if -value < tmin then .error ⟨"integer too long", some pos2⟩
        else .ok (-value, pos2)
      else
        if value > tmax then .error ⟨"integer too long", some pos2⟩
        else .ok (value, pos2)

/-- Modelled from the spec: the numeric type aliases of
`osmium/osm/types.hpp` are not under `src/`.  The spec fixes the object id as
a signed 64-bit integer; version, uid, changeset id, num-changes and
num-comments are "small unsigned integers (domain-specific widths)" -
libosmium uses 32-bit unsigned for all of them. -/
def int64_min : Int := -9223372036854775808

def int64_max : Int := 9223372036854775807

def uint32_max : Int := 4294967295

def opl_parse_id (line : List Nat) (pos : Nat) : Except Err (Int × Nat) :=
  opl_parse_int int64_min int64_max line pos

def opl_parse_changeset_id (line : List Nat) (pos : Nat) : Except Err (Int × Nat) :=
  opl_parse_int 0 uint32_max line pos

def opl_parse_version (line : List Nat) (pos : Nat) : Except Err (Int × Nat) :=
  opl_parse_int 0 uint32_max line pos

def opl_parse_uid (line : List Nat) (pos : Nat) : Except Err (Int × Nat) :=
  opl_parse_int 0 uint32_max line pos

/-- `opl_parse_visible`: `V` (86) is true, `D` (68) is false, anything else is
an error. -/
def opl_parse_visible (line : List Nat) (pos : Nat) : Except Err (Bool × Nat) :=
  if peek line pos = 86 then .ok (true, pos + 1)
  else if peek line pos = 68 then .ok (false, pos + 1)
  else .error ⟨"invalid visible flag", some pos⟩

/-! ## Timestamps (`opl_parse_timestamp`) -/

def isDigitByte (b : Nat) : Bool := decide (48 ≤ b) && decide (b ≤ 57)

/-- Modelled from the spec: the `osmium::Timestamp` ISO-8601 parser of
`osmium/osm/timestamp.hpp` is not under `src/`.  The spec requires "exactly 20
ASCII bytes in ISO-8601 Z form", i.e. digits in the date/time slots and the
literal separators `-` `-` `T` `:` `:` `Z`. -/
def iso_ts_valid (ts : List Nat) : Bool :=
  match ts with
  | [y1, y2, y3, y4, s1, m1, m2, s2, d1, d2, t, h1, h2, c1, n1, n2, c2, x1, x2, z] =>
    isDigitByte y1 && isDigitByte y2 && isDigitByte y3 && isDigitByte y4 &&
    decide (s1 = 45) && isDigitByte m1 && isDigitByte m2 && decide (s2 = 45) &&
    isDigitByte d1 && isDigitByte d2 && decide (t = 84) &&
    isDigitByte h1 && isDigitByte h2 && decide (c1 = 58) &&
    isDigitByte n1 && isDigitByte n2 && decide (c2 = 58) &&
    isDigitByte x1 && isDigitByte x2 && decide (z = 90)
  | _ => false

/-- `opl_parse_timestamp`: an empty field (NUL, space or tab at entry) yields
the unset sentinel (`none`); otherwise exactly 20 bytes are consumed and
validated, any failure becoming "can not parse timestamp" at the entry
cursor. -/
def opl_parse_timestamp (line : List Nat) (pos : Nat) :
    Except Err (Option (List Nat) × Nat) :=
  if peek line pos = 0 ∨ peek line pos = 32 ∨ peek line pos = 9 then .ok (none, pos)
  else
    let ts := (List.range 20).map fun i => peek line (pos + i)
    if iso_ts_valid ts then .ok (some ts, pos + 20)
    else .error ⟨"can not parse timestamp", some pos⟩

/-! ## Single characters (`opl_parse_char`) -/

/-- `opl_parse_char`: consume exactly the byte `c` or fail with
`expected '<c>'`. -/
def opl_parse_char (line : List Nat) (c : Nat) (pos : Nat) : Except Err Nat :=
  if peek line pos = c then .ok (pos + 1)
  else
    .error ⟨"expected " ++ String.singleton (Char.ofNat 39) ++
      String.singleton (Char.ofNat c) ++ String.singleton (Char.ofNat 39), some pos⟩

/-! ## Locations and boxes -/

/-- Modelled from the spec: `osmium::Location` of `osmium/osm/location.hpp` is
not under `src/`.  Each coordinate is an optional fixed-point value; the
default-constructed location is the undefined sentinel on both axes, and per
the spec a location is valid when both coordinates are present. -/
structure Location where
  x : Option Int := none
  y : Option Int := none
  deriving Repr, DecidableEq

def Location.valid (l : Location) : Bool := l.x.isSome && l.y.isSome

/-- `osmium::Box`: a pair of locations, default-constructed to the undefined
sentinels. -/
structure Box where
  bottom_left : Location := {}
  top_right : Location := {}
  deriving Repr, DecidableEq

/-- Collect a run of decimal digit bytes starting at `pos`. -/
def coord_digits (line : List Nat) : Nat → Nat → List Nat × Nat
  | 0, pos => ([], pos)
  | fuel + 1, pos =>
    if 48 ≤ peek line pos ∧ peek line pos ≤ 57 then
      let r := coord_digits line fuel (pos + 1)
      (peek line pos :: r.1, r.2)
    else ([], pos)

/-- Numeric value of a run of decimal digit bytes. -/
def natDigitsVal (ds : List Nat) : Nat := ds.foldl (fun a d => a * 10 + (d - 48)) 0

/-- Fixed-point value of a fractional digit run: the first seven digits,
zero-padded, rounded up when the eighth digit is 5 or more. -/
def frac7 (fs : List Nat) : Nat :=
  let v := natDigitsVal ((fs ++ List.replicate 7 48).take 7)
  if 53 ≤ fs.getD 7 48 then v + 1 else v

/-- Modelled from the spec: `osmium::Location::set_lon_partial` and
`set_lat_partial` of `osmium/osm/location.hpp` are not under `src/`.  The spec
says they parse "a signed decimal (with optional fractional part) into the
provided coordinate slot, advancing the cursor past the number; on malformed
numeric, positional failure", the value being scaled to a fixed-point integer
`round(degrees * 10^7)`. -/
def parse_coord (line : List Nat) (fuel pos : Nat) : Except Err (Int × Nat) :=
  let neg := peek line pos = 45
  let pos0 := if neg then pos + 1 else pos
  let r1 := coord_digits line fuel pos0
  if r1.1.isEmpty then .error ⟨"wrong format for coordinate", some pos⟩
  else
    let r2 := if peek line r1.2 = 46 then coord_digits line fuel (r1.2 + 1) else ([], r1.2)
    let mag : Nat := natDigitsVal r1.1 * 10000000 + frac7 r2.1
    .ok (if neg then -(mag : Int) else (mag : Int), r2.2)

/-! ## Entities -/

inductive ItemType where
  | node
  | way
  | relation
  deriving Repr, DecidableEq

/-- A built node.  Unset meta fields are `none` (the builder never received a
set call for them); `user` is set unconditionally at finalisation. -/
structure Node where
  id : Int := 0
  version : Option Int := none
  visible : Option Bool := none
  changeset : Option Int := none
  timestamp : Option (List Nat) := none
  uid : Option Int := none
  user : List Nat := []
  tags : List (List Nat × List Nat) := []
  location : Option Location := none
  deriving Repr, DecidableEq

structure Way where
  id : Int := 0
  version : Option Int := none
  visible : Option Bool := none
  changeset : Option Int := none
  timestamp : Option (List Nat) := none
  uid : Option Int := none
  user : List Nat := []
  tags : List (List Nat × List Nat) := []
  nodes : List (Int × Location) := []
  deriving Repr, DecidableEq

structure Relation where
  id : Int := 0
  version : Option Int := none
  visible : Option Bool := none
  changeset : Option Int := none
  timestamp : Option (List Nat) := none
  uid : Option Int := none
  user : List Nat := []
  tags : List (List Nat × List Nat) := []
  members : List (ItemType × Int × List Nat) := []
  deriving Repr, DecidableEq

structure Changeset where
  id : Int := 0
  num_changes : Option Int := none
  created_at : Option (List Nat) := none
  closed_at : Option (List Nat) := none
  num_comments : Option Int := none
  uid : Option Int := none
  user : List Nat := []
  tags : List (List Nat × List Nat) := []
  bounds : Box := {}
  deriving Repr, DecidableEq

/-- One entity committed to the sink. -/
inductive Entity where
  | node (n : Node)
  | way (w : Way)
  | relation (r : Relation)
  | changeset (c : Changeset)
  deriving Repr, DecidableEq

/-- `osmium::osm_entity_bits::type`: the kind mask consulted by the line
dispatcher. -/
structure EntityBits where
  node : Bool
  way : Bool
  relation : Bool
  changeset : Bool
  deriving Repr, DecidableEq

def EntityBits.all : EntityBits := ⟨true, true, true, true⟩

/-! ## Tag lists (`opl_parse_tags`) -/

/-- The loop of `opl_parse_tags`: `key '=' value`, repeated, separated by a
single `,` (44); after a value, NUL, space or tab terminates the list. -/
def opl_parse_tags_go (line : List Nat) :
    Nat → Nat → List (List Nat × List Nat) → Except Err (List (List Nat × List Nat) × Nat)
  | 0, pos, acc => .ok (acc, pos)
  | fuel + 1, pos, acc =>
    match opl_parse_string line fuel pos with
    | .error e => .error e
    | .ok (key, pos1) =>
      match opl_parse_char line 61 pos1 with
      | .error e => .error e
      | .ok pos2 =>
        match opl_parse_string line fuel pos2 with
        | .error e => .error e
        | .ok (value, pos3) =>
          if peek line pos3 = 32 ∨ peek line pos3 = 9 ∨ peek line pos3 = 0 then
            .ok (acc ++ [(key, value)], pos3)
          else
            match opl_parse_char line 44 pos3 with
            | .error e => .error e
            | .ok pos4 => opl_parse_tags_go line fuel pos4 (acc ++ [(key, value)])

/-- `opl_parse_tags`, invoked on the recorded start of the deferred `T`
section. -/
def opl_parse_tags (line : List Nat) (fuel pos : Nat) :
    Except Err (List (List Nat × List Nat) × Nat) :=
  opl_parse_tags_go line fuel pos []

/-! ## Way node lists (`opl_parse_way_nodes`) -/

/-- The loop of `opl_parse_way_nodes` over the half-open range `[pos, e)`:
each element is `n<id>`, optionally followed by `x<lon>` and then optionally
`y<lat>`, elements separated by `,`. -/
def opl_parse_way_nodes_go (line : List Nat) (e : Nat) :
    Nat → Nat → List (Int × Location) → Except Err (List (Int × Location) × Nat)
  | 0, pos, acc => .ok (acc, pos)
  | fuel + 1, pos, acc =>
    if pos < e then
      match opl_parse_char line 110 pos with
      | .error e2 => .error e2
      | .ok pos1 =>
        if pos1 = e then .error ⟨"expected integer", some pos1⟩
        else
          match opl_parse_id line pos1 with
          | .error e2 => .error e2
          | .ok (ref, pos2) =>
            if pos2 = e then .ok (acc ++ [(ref, {})], pos2)
            else
              let step : Except Err (Location × Nat) :=
                if peek line pos2 = 120 then
                  match parse_coord line fuel (pos2 + 1) with
                  | .error e2 => .error e2
                  | .ok (lon, pos3) =>
                    if peek line pos3 = 121 then
                      match parse_coord line fuel (pos3 + 1) with
                      | .error e2 => .error e2
                      | .ok (lat, pos4) => .ok ({ x := some lon, y := some lat }, pos4)
                    else .ok ({ x := some lon }, pos3)
                else .ok ({}, pos2)
              match step with
              | .error e2 => .error e2
              | .ok (loc, pos5) =>
                if pos5 = e then .ok (acc ++ [(ref, loc)], pos5)
                else
                  match opl_parse_char line 44 pos5 with
                  | .error e2 => .error e2
                  | .ok pos6 => opl_parse_way_nodes_go line e fuel pos6 (acc ++ [(ref, loc)])
    else .ok (acc, pos)

/-- `opl_parse_way_nodes`: empty range yields no nodes. -/
def opl_parse_way_nodes (line : List Nat) (fuel s e : Nat) :
    Except Err (List (Int × Location)) :=
  if s = e then .ok []
  else
    match opl_parse_way_nodes_go line e fuel s [] with
    | .error e2 => .error e2
    | .ok (ns, _) => .ok ns

/-! ## Relation member lists (`opl_parse_relation_members`) -/

/-- `char_to_item_type` restricted as in `opl_parse_relation_members`: only
`n` (110), `w` (119) and `r` (114) are accepted, anything else is an
"unknown object type" error. -/
def opl_parse_relation_members_go (line : List Nat) (e : Nat) :
    Nat → Nat → List (ItemType × Int × List Nat) →
    Except Err (List (ItemType × Int × List Nat) × Nat)
  | 0, pos, acc => .ok (acc, pos)
  | fuel + 1, pos, acc =>
    if pos < e then
      let ty : Except Err ItemType :=
        if peek line pos = 110 then .ok .node
        else if peek line pos = 119 then .ok .way
        else if peek line pos = 114 then .ok .relation
        else .error ⟨"unknown object type", some pos⟩
      match ty with
      | .error e2 => .error e2
      | .ok t =>
        if pos + 1 = e then .error ⟨"expected integer", some (pos + 1)⟩
        else
          match opl_parse_id line (pos + 1) with
          | .error e2 => .error e2
          | .ok (ref, pos2) =>
            match opl_parse_char line 64 pos2 with
            | .error e2 => .error e2
            | .ok pos3 =>
              if pos3 = e then .ok (acc ++ [(t, ref, [])], pos3)
              else
                match opl_parse_string line fuel pos3 with
                | .error e2 => .error e2
                | .ok (role, pos4) =>
                  if pos4 = e then .ok (acc ++ [(t, ref, role)], pos4)
                  else
                    match opl_parse_char line 44 pos4 with
                    | .error e2 => .error e2
                    | .ok pos5 =>
                      opl_parse_relation_members_go line e fuel pos5 (acc ++ [(t, ref, role)])
    else .ok (acc, pos)

/-- `opl_parse_relation_members`: empty range yields no members. -/
def opl_parse_relation_members (line : List Nat) (fuel s e : Nat) :
    Except Err (List (ItemType × Int × List Nat)) :=
  if s = e then .ok []
  else
    match opl_parse_relation_members_go line e fuel s [] with
    | .error e2 => .error e2
    | .ok (ms, _) => .ok ms

/-! ## Node parser (`opl_parse_node`) -/

/-- Loop state of `opl_parse_node`: the builder fields set so far, the
per-attribute uniqueness flags, the user string, the deferred tag-section
start and the location being assembled. -/
structure NodeSt where
  node : Node := {}
  hasVersion : Bool := false
  hasVisible : Bool := false
  hasChangeset : Bool := false
  hasTimestamp : Bool := false
  hasUid : Bool := false
  hasUser : Bool := false
  hasTags : Bool := false
  hasLon : Bool := false
  hasLat : Bool := false
  user : List Nat := []
  tagsBegin : Option Nat := none
  loc : Location := {}
  deriving Repr, DecidableEq

/-- The attribute switch of `opl_parse_node`.  `c` is the attribute letter
already consumed; `pos` points just past it.  On an unknown letter the parser
steps the cursor back one byte (`--(*data)`), so the error cursor is
`pos - 1`.  Duplicate-attribute errors are thrown without a cursor, as in the
source. -/
def node_attr (line : List Nat) (fuel : Nat) (c pos : Nat) (st : NodeSt) :
    Except Err (NodeSt × Nat) :=
  if c = 118 then
    if st.hasVersion then .error ⟨"Duplicate attribute: version (v)", none⟩
    else
      match opl_parse_version line pos with
      | .error e => .error e
      | .ok (v, p) =>
        .ok ({ st with hasVersion := true, node := { st.node with version := some v } }, p)
  else if c = 100 then
    if st.hasVisible then .error ⟨"Duplicate attribute: visible (d)", none⟩
    else
      match opl_parse_visible line pos with
      | .error e => .error e
      | .ok (v, p) =>
        .ok ({ st with hasVisible := true, node := { st.node with visible := some v } }, p)
  else if c = 99 then
    if st.hasChangeset then .error ⟨"Duplicate attribute: changeset_id (c)", none⟩
    else
      match opl_parse_changeset_id line pos with
      | .error e => .error e
      | .ok (v, p) =>
        .ok ({ st with hasChangeset := true, node := { st.node with changeset := some v } }, p)
  else if c = 116 then
    if st.hasTimestamp then .error ⟨"Duplicate attribute: timestamp (t)", none⟩
    else
      match opl_parse_timestamp line pos with
      | .error e => .error e
      | .ok (v, p) =>
        .ok ({ st with hasTimestamp := true, node := { st.node with timestamp := v } }, p)
  else if c = 105 then
    if st.hasUid then .error ⟨"Duplicate attribute: uid (i)", none⟩
    else
      match opl_parse_uid line pos with
      | .error e => .error e
      | .ok (v, p) =>
        .ok ({ st with hasUid := true, node := { st.node with uid := some v } }, p)
  else if c = 117 then
    if st.hasUser then .error ⟨"Duplicate attribute: user (u)", none⟩
    else
      match opl_parse_string line fuel pos with
      | .error e => .error e
      | .ok (u, p) => .ok ({ st with hasUser := true, user := u }, p)
  else if c = 84 then
    if st.hasTags then .error ⟨"Duplicate attribute: tags (T)", none⟩
    else if opl_non_empty line pos then
      .ok ({ st with hasTags := true, tagsBegin := some pos },
        opl_skip_section line fuel pos)
    else .ok ({ st with hasTags := true }, pos)
  else if c = 120 then
    if st.hasLon then .error ⟨"Duplicate attribute: lon (x)", none⟩
    else if opl_non_empty line pos then
      match parse_coord line fuel pos with
      | .error e => .error e
      | .ok (v, p) =>
        .ok ({ st with hasLon := true, loc := { st.loc with x := some v } }, p)
    else .ok ({ st with hasLon := true }, pos)
  else if c = 121 then
    if st.hasLat then .error ⟨"Duplicate attribute: lat (y)", none⟩
    else if opl_non_empty line pos then
      match parse_coord line fuel pos with
      | .error e => .error e
      | .ok (v, p) =>
        .ok ({ st with hasLat := true, loc := { st.loc with y := some v } }, p)
    else .ok ({ st with hasLat := true }, pos)
  else .error ⟨"unknown attribute", some (pos - 1)⟩

/-- The attribute loop of `opl_parse_node`: `while (**data)` require
whitespace, read one attribute letter and dispatch. -/
def opl_parse_node_go (line : List Nat) : Nat → Nat → NodeSt → Except Err (NodeSt × Nat)
  | 0, pos, st => .ok (st, pos)
  | fuel + 1, pos, st =>
    if peek line pos = 0 then .ok (st, pos)
    else
      match opl_parse_space line fuel pos with
      | .error e => .error e
      | .ok pos1 =>
        if peek line pos1 = 0 then .ok (st, pos1)
        else
          match node_attr line fuel (peek line pos1) (pos1 + 1) st with
          | .error e => .error e
          | .ok (st2, pos2) => opl_parse_node_go line fuel pos2 st2

/-- `opl_parse_node`: id, attribute loop, then finalisation - the location is
set only if valid, the user string is set unconditionally, and the deferred
tag section is parsed last. -/
def opl_parse_node (line : List Nat) (fuel pos : Nat) : Except Err (Node × Nat) :=
  match opl_parse_id line pos with
  | .error e => .error e
  | .ok (i, pos1) =>
    match opl_parse_node_go line fuel pos1 { node := { id := i } } with
    | .error e => .error e
    | .ok (st, pos2) =>
      let n1 := if st.loc.valid then { st.node with location := some st.loc } else st.node
      let n2 := { n1 with user := st.user }
      match st.tagsBegin with
      | none => .ok (n2, pos2)
      | some tb =>
        match opl_parse_tags line fuel tb with
        | .error e => .error e
        | .ok (tags, _) => .ok ({ n2 with tags := tags }, pos2)

/-! ## Way parser (`opl_parse_way`) -/

structure WaySt where
  way : Way := {}
  hasVersion : Bool := false
  hasVisible : Bool := false
  hasChangeset : Bool := false
  hasTimestamp : Bool := false
  hasUid : Bool := false
  hasUser : Bool := false
  hasTags : Bool := false
  hasNodes : Bool := false
  user : List Nat := []
  tagsBegin : Option Nat := none
  nodesRange : Option (Nat × Nat) := none
  deriving Repr, DecidableEq

/-- The attribute switch of `opl_parse_way`. -/
def way_attr (line : List Nat) (fuel : Nat) (c pos : Nat) (st : WaySt) :
    Except Err (WaySt × Nat) :=
  if c = 118 then
    if st.hasVersion then .error ⟨"Duplicate attribute: version (v)", none⟩
    else
      match opl_parse_version line pos with
      | .error e => .error e
      | .ok (v, p) =>
        .ok ({ st with hasVersion := true, way := { st.way with version := some v } }, p)
  else if c = 100 then
    if st.hasVisible then .error ⟨"Duplicate attribute: visible (d)", none⟩
    else
      match opl_parse_visible line pos with
      | .error e => .error e
      | .ok (v, p) =>
        .ok ({ st with hasVisible := true, way := { st.way with visible := some v } }, p)
  else if c = 99 then
    if st.hasChangeset then .error ⟨"Duplicate attribute: changeset_id (c)", none⟩
    else
      match opl_parse_changeset_id line pos with
      | .error e => .error e
      | .ok (v, p) =>
        .ok ({ st with hasChangeset := true, way := { st.way with changeset := some v } }, p)
  else if c = 116 then
    if st.hasTimestamp then .error ⟨"Duplicate attribute: timestamp (t)", none⟩
    else
      match opl_parse_timestamp line pos with
      | .error e => .error e
      | .ok (v, p) =>
        .ok ({ st with hasTimestamp := true, way := { st.way with timestamp := v } }, p)
  else if c = 105 then
    if st.hasUid then .error ⟨"Duplicate attribute: uid (i)", none⟩
    else
      match opl_parse_uid line pos with
      | .error e => .error e
      | .ok (v, p) =>
        .ok ({ st with hasUid := true, way := { st.way with uid := some v } }, p)
  else if c = 117 then
    if st.hasUser then .error ⟨"Duplicate attribute: user (u)", none⟩
    else
      match opl_parse_string line fuel pos with
      | .error e => .error e
      | .ok (u, p) => .ok ({ st with hasUser := true, user := u }, p)
  else if c = 84 then
    if st.hasTags then .error ⟨"Duplicate attribute: tags (T)", none⟩
    else if opl_non_empty line pos then
      .ok ({ st with hasTags := true, tagsBegin := some pos },
        opl_skip_section line fuel pos)
    else .ok ({ st with hasTags := true }, pos)
  else if c = 78 then
    if st.hasNodes then .error ⟨"Duplicate attribute: nodes (N)", none⟩
    else
      let e := opl_skip_section line fuel pos
      .ok ({ st with hasNodes := true, nodesRange := some (pos, e) }, e)
  else .error ⟨"unknown attribute", some (pos - 1)⟩

def opl_parse_way_go (line : List Nat) : Nat → Nat → WaySt → Except Err (WaySt × Nat)
  | 0, pos, st => .ok (st, pos)
  | fuel + 1, pos, st =>
    if peek line pos = 0 then .ok (st, pos)
    else
      match opl_parse_space line fuel pos with
      | .error e => .error e
      | .ok pos1 =>
        if peek line pos1 = 0 then .ok (st, pos1)
        else
          match way_attr line fuel (peek line pos1) (pos1 + 1) st with
          | .error e => .error e
          | .ok (st2, pos2) => opl_parse_way_go line fuel pos2 st2

/-- `opl_parse_way`: id, attribute loop, then user, deferred tags and the
way-node list (always invoked; an unset range is the empty range). -/
def opl_parse_way (line : List Nat) (fuel pos : Nat) : Except Err (Way × Nat) :=
  match opl_parse_id line pos with
  | .error e => .error e
  | .ok (i, pos1) =>
    match opl_parse_way_go line fuel pos1 { way := { id := i } } with
    | .error e => .error e
    | .ok (st, pos2) =>
      let w1 := { st.way with user := st.user }
      let withTags : Except Err Way :=
        match st.tagsBegin with
        | none => .ok w1
        | some tb =>
          match opl_parse_tags line fuel tb with
          | .error e => .error e
          | .ok (tags, _) => .ok { w1 with tags := tags }
      match withTags with
      | .error e => .error e
      | .ok w2 =>
        let r := st.nodesRange.getD (0, 0)
        match opl_parse_way_nodes line fuel r.1 r.2 with
        | .error e => .error e
        | .ok ns => .ok ({ w2 with nodes := ns }, pos2)

/-! ## Relation parser (`opl_parse_relation`) -/

structure RelationSt where
  rel : Relation := {}
  hasVersion : Bool := false
  hasVisible : Bool := false
  hasChangeset : Bool := false
  hasTimestamp : Bool := false
  hasUid : Bool := false
  hasUser : Bool := false
  hasTags : Bool := false
  hasMembers : Bool := false
  user : List Nat := []
  tagsBegin : Option Nat := none
  membersRange : Option (Nat × Nat) := none
  deriving Repr, DecidableEq

/-- The attribute switch of `opl_parse_relation`. -/
def relation_attr (line : List Nat) (fuel : Nat) (c pos : Nat) (st : RelationSt) :
    Except Err (RelationSt × Nat) :=
  if c = 118 then
    if st.hasVersion then .error ⟨"Duplicate attribute: version (v)", none⟩
    else
      match opl_parse_version line pos with
      | .error e => .error e
      | .ok (v, p) =>
        .ok ({ st with hasVersion := true, rel := { st.rel with version := some v } }, p)
  else if c = 100 then
    if st.hasVisible then .error ⟨"Duplicate attribute: visible (d)", none⟩
    else
      match opl_parse_visible line pos with
      | .error e => .error e
      | .ok (v, p) =>
        .ok ({ st with hasVisible := true, rel := { st.rel with visible := some v } }, p)
  else if c = 99 then
    if st.hasChangeset then .error ⟨"Duplicate attribute: changeset_id (c)", none⟩
    else
      match opl_parse_changeset_id line pos with
      | .error e => .error e
      | .ok (v, p) =>
        .ok ({ st with hasChangeset := true, rel := { st.rel with changeset := some v } }, p)
  else if c = 116 then
    if st.hasTimestamp then .error ⟨"Duplicate attribute: timestamp (t)", none⟩
    else
      match opl_parse_timestamp line pos with
      | .error e => .error e
      | .ok (v, p) =>
        .ok ({ st with hasTimestamp := true, rel := { st.rel with timestamp := v } }, p)
  else if c = 105 then
    if st.hasUid then .error ⟨"Duplicate attribute: uid (i)", none⟩
    else
      match opl_parse_uid line pos with
      | .error e => .error e
      | .ok (v, p) =>
        .ok ({ st with hasUid := true, rel := { st.rel with uid := some v } }, p)
  else if c = 117 then
    if st.hasUser then .error ⟨"Duplicate attribute: user (u)", none⟩
    else
      match opl_parse_string line fuel pos with
      | .error e => .error e
      | .ok (u, p) => .ok ({ st with hasUser := true, user := u }, p)
  else if c = 84 then
    if st.hasTags then .error ⟨"Duplicate attribute: tags (T)", none⟩
    else if opl_non_empty line pos then
      .ok ({ st with hasTags := true, tagsBegin := some pos },
        opl_skip_section line fuel pos)
    else .ok ({ st with hasTags := true }, pos)
  else if c = 77 then
    if st.hasMembers then .error ⟨"Duplicate attribute: members (M)", none⟩
    else
      let e := opl_skip_section line fuel pos
      .ok ({ st with hasMembers := true, membersRange := some (pos, e) }, e)
  else .error ⟨"unknown attribute", some (pos - 1)⟩

def opl_parse_relation_go (line : List Nat) :
    Nat → Nat → RelationSt → Except Err (RelationSt × Nat)
  | 0, pos, st => .ok (st, pos)
  | fuel + 1, pos, st =>
    if peek line pos = 0 then .ok (st, pos)
    else
      match opl_parse_space line fuel pos with
      | .error e => .error e
      | .ok pos1 =>
        if peek line pos1 = 0 then .ok (st, pos1)
        else
          match relation_attr line fuel (peek line pos1) (pos1 + 1) st with
          | .error e => .error e
          | .ok (st2, pos2) => opl_parse_relation_go line fuel pos2 st2

/-- `opl_parse_relation`: id, attribute loop, then user, deferred tags, and
the member list, which is parsed only when its recorded range is non-empty. -/
def opl_parse_relation (line : List Nat) (fuel pos : Nat) : Except Err (Relation × Nat) :=
  match opl_parse_id line pos with
  | .error e => .error e
  | .ok (i, pos1) =>
    match opl_parse_relation_go line fuel pos1 { rel := { id := i } } with
    | .error e => .error e
    | .ok (st, pos2) =>
      let r1 := { st.rel with user := st.user }
      let withTags : Except Err Relation :=
        match st.tagsBegin with
        | none => .ok r1
        | some tb =>
          match opl_parse_tags line fuel tb with
          | .error e => .error e
          | .ok (tags, _) => .ok { r1 with tags := tags }
      match withTags with
      | .error e => .error e
      | .ok r2 =>
        let rg := st.membersRange.getD (0, 0)
        if rg.1 ≠ rg.2 then
          match opl_parse_relation_members line fuel rg.1 rg.2 with
          | .error e => .error e
          | .ok ms => .ok ({ r2 with members := ms }, pos2)
        else .ok (r2, pos2)

/-! ## Changeset parser (`opl_parse_changeset`) -/

structure ChangesetSt where
  cs : Changeset := {}
  hasNumChanges : Bool := false
  hasCreatedAt : Bool := false
  hasClosedAt : Bool := false
  hasNumComments : Bool := false
  hasUid : Bool := false
  hasUser : Bool := false
  hasTags : Bool := false
  hasMinX : Bool := false
  hasMinY : Bool := false
  hasMaxX : Bool := false
  hasMaxY : Bool := false
  user : List Nat := []
  tagsBegin : Option Nat := none
  box : Box := {}
  deriving Repr, DecidableEq

/-- The attribute switch of `opl_parse_changeset`. -/
def changeset_attr (line : List Nat) (fuel : Nat) (c pos : Nat) (st : ChangesetSt) :
    Except Err (ChangesetSt × Nat) :=
  if c = 107 then
    if st.hasNumChanges then .error ⟨"Duplicate attribute: num_changes (k)", none⟩
    else
      match opl_parse_int 0 uint32_max line pos with
      | .error e => .error e
      | .ok (v, p) =>
        .ok ({ st with hasNumChanges := true, cs := { st.cs with num_changes := some v } }, p)
  else if c = 115 then
    if st.hasCreatedAt then .error ⟨"Duplicate attribute: created_at (s)", none⟩
    else
      match opl_parse_timestamp line pos with
      | .error e => .error e
      | .ok (v, p) =>
        .ok ({ st with hasCreatedAt := true, cs := { st.cs with created_at := v } }, p)
  else if c = 101 then
    if st.hasClosedAt then .error ⟨"Duplicate attribute: closed_at (e)", none⟩
    else
      match opl_parse_timestamp line pos with
      | .error e => .error e
      | .ok (v, p) =>
        .ok ({ st with hasClosedAt := true, cs := { st.cs with closed_at := v } }, p)
  else if c = 100 then
    if st.hasNumComments then .error ⟨"Duplicate attribute: num_comments (d)", none⟩
    else
      match opl_parse_int 0 uint32_max line pos with
      | .error e => .error e
      | .ok (v, p) =>
        .ok ({ st with hasNumComments := true, cs := { st.cs with num_comments := some v } }, p)
  else if c = 105 then
    if st.hasUid then .error ⟨"Duplicate attribute: uid (i)", none⟩
    else
      match opl_parse_uid line pos with
      | .error e => .error e
      | .ok (v, p) =>
        .ok ({ st with hasUid := true, cs := { st.cs with uid := some v } }, p)
  else if c = 117 then
    if st.hasUser then .error ⟨"Duplicate attribute: user (u)", none⟩
    else
      match opl_parse_string line fuel pos with
      | .error e => .error e
      | .ok (u, p) => .ok ({ st with hasUser := true, user := u }, p)
  else if c = 120 then
    if st.hasMinX then .error ⟨"Duplicate attribute: min_x (x)", none⟩
    else if opl_non_empty line pos then
      match parse_coord line fuel pos with
      | .error e => .error e
      | .ok (v, p) =>
        let bl := { st.box.bottom_left with x := some v }
        .ok ({ st with hasMinX := true, box := { st.box with bottom_left := bl } }, p)
    else .ok ({ st with hasMinX := true }, pos)
  else if c = 121 then
    if st.hasMinY then .error ⟨"Duplicate attribute: min_y (y)", none⟩
    else if opl_non_empty line pos then
      match parse_coord line fuel pos with
      | .error e => .error e
      | .ok (v, p) =>
        let bl := { st.box.bottom_left with y := some v }
        .ok ({ st with hasMinY := true, box := { st.box with bottom_left := bl } }, p)
    else .ok ({ st with hasMinY := true }, pos)
  else if c = 88 then
    if st.hasMaxX then .error ⟨"Duplicate attribute: max_x (X)", none⟩
    else if opl_non_empty line pos then
      match parse_coord line fuel pos with
      | .error e => .error e
      | .ok (v, p) =>
        let tr := { st.box.top_right with x := some v }
        .ok ({ st with hasMaxX := true, box := { st.box with top_right := tr } }, p)
    else .ok ({ st with hasMaxX := true }, pos)
  else if c = 89 then
    if st.hasMaxY then .error ⟨"Duplicate attribute: max_y (Y)", none⟩
    else if opl_non_empty line pos then
      match parse_coord line fuel pos with
      | .error e => .error e
      | .ok (v, p) =>
        let tr := { st.box.top_right with y := some v }
        .ok ({ st with hasMaxY := true, box := { st.box with top_right := tr } }, p)
    else .ok ({ st with hasMaxY := true }, pos)
  else if c = 84 then
    if st.hasTags then .error ⟨"Duplicate attribute: tags (T)", none⟩
    else if opl_non_empty line pos then
      .ok ({ st with hasTags := true, tagsBegin := some pos },
        opl_skip_section line fuel pos)
    else .ok ({ st with hasTags := true }, pos)
  else .error ⟨"unknown attribute", some (pos - 1)⟩

def opl_parse_changeset_go (line : List Nat) :
    Nat → Nat → ChangesetSt → Except Err (ChangesetSt × Nat)
  | 0, pos, st => .ok (st, pos)
  | fuel + 1, pos, st =>
    if peek line pos = 0 then .ok (st, pos)
    else
      match opl_parse_space line fuel pos with
      | .error e => .error e
      | .ok pos1 =>
        if peek line pos1 = 0 then .ok (st, pos1)
        else
          match changeset_attr line fuel (peek line pos1) (pos1 + 1) st with
          | .error e => .error e
          | .ok (st2, pos2) => opl_parse_changeset_go line fuel pos2 st2

/-- `opl_parse_changeset`: changeset id, attribute loop, then finalisation -
the bounding box is set regardless of which edges were assembled, the user
string unconditionally, and the deferred tag section parsed last. -/
def opl_parse_changeset (line : List Nat) (fuel pos : Nat) : Except Err (Changeset × Nat) :=
  match opl_parse_changeset_id line pos with
  | .error e => .error e
  | .ok (i, pos1) =>
    match opl_parse_changeset_go line fuel pos1 { cs := { id := i } } with
    | .error e => .error e
    | .ok (st, pos2) =>
      let c1 := { st.cs with bounds := st.box, user := st.user }
      match st.tagsBegin with
      | none => .ok (c1, pos2)
      | some tb =>
        match opl_parse_tags line fuel tb with
        | .error e => .error e
        | .ok (tags, _) => .ok ({ c1 with tags := tags }, pos2)

/-! ## Line dispatcher (`opl_parse_line`) -/

/-- The positional error surfaced by the dispatcher: the inner error message
annotated with the line number and the column (`set_pos`). -/
structure LineErr where
  msg : String
  line : Nat
  column : Nat
  deriving Repr, DecidableEq

/-- `opl_error::set_pos` as used by the dispatcher: the column is the byte
offset of the failing cursor from the start of the line (which is offset 0
here), or 0 when the error carries no cursor. -/
def opl_set_pos (e : Err) (line_count : Nat) : LineErr :=
  { msg := e.msg, line := line_count, column := e.data.getD 0 }

/-- `opl_parse_line`: dispatch on the first byte, filtered by the kind mask.
The second component of the result is the list of entities committed to the
sink by this call (`buffer.commit()` runs exactly once on each successful
path, and never on the `false` or error paths). -/
def opl_parse_line (line_count : Nat) (line : List Nat) (read_types : EntityBits) :
    Except LineErr Bool × List Entity :=
  let fuel := line.length + 2
  let body : Except Err (Bool × List Entity) :=
    if peek line 0 = 0 then .ok (false, [])
    else if peek line 0 = 35 then .ok (false, [])
    else if peek line 0 = 110 then
      if read_types.node then
        match opl_parse_node line fuel 1 with
        | .error e => .error e
        | .ok (n, _) => .ok (true, [.node n])
      else .ok (false, [])
    else if peek line 0 = 119 then
      if read_types.way then
        match opl_parse_way line fuel 1 with
        | .error e => .error e
        | .ok (w, _) => .ok (true, [.way w])
      else .ok (false, [])
    else if peek line 0 = 114 then
      if read_types.relation then
        match opl_parse_relation line fuel 1 with
        | .error e => .error e
        | .ok (r, _) => .ok (true, [.relation r])
      else .ok (false, [])
    else if peek line 0 = 99 then
      if read_types.changeset then
        match opl_parse_changeset line fuel 1 with
        | .error e => .error e
        | .ok (c, _) => .ok (true, [.changeset c])
      else .ok (false, [])
    else .error ⟨"unknown type", some 0⟩
  match body with
  | .ok (r, es) => (.ok r, es)
  | .error e => (.error (opl_set_pos e line_count), [])

/-- Bytes of an ASCII test line. -/
def strBytes (s : String) : List Nat := s.toList.map Char.toNat

/-- The UTF-8 bytes of the five-character string Caf-e-acute ("Café"):
`Caf` followed by the two-byte encoding of U+00E9. -/
def cafeBytes : List Nat := [67, 97, 102, 195, 169]

/-- Expected commit for `n1 Tname=Caf%C3%A9`: the tag value is
`Caf` ++ UTF-8(U+00C3) ++ `A9`. -/
def cafeWrongNode : Node :=
  { id := 1, tags := [([110, 97, 109, 101], [67, 97, 102, 195, 131, 65, 57])] }

/-- Expected commit for `n1 Tname=Caf%E9%`: the tag value is the UTF-8 bytes
of "Café". -/
def cafeRightNode : Node :=
  { id := 1, tags := [([110, 97, 109, 101], cafeBytes)] }

/-- Accumulate decimal digit bytes onto `v`, exactly as the digit loop of
`opl_parse_int` does. -/
def digitAccum (v : Int) (ds : List Nat) : Int :=
  ds.foldl (fun a d => a * 10 + ((d : Int) - 48)) v

/-- Numeric value of a run of decimal digit bytes. -/
def digitsVal (ds : List Nat) : Int := digitAccum 0 ds

/-- Hex-digit accumulation exactly as the loop of `opl_parse_escaped` does it:
shift by 4, add the digit, reduce mod 2^32 (the C accumulator is `uint32_t`). -/
def hexAccum (v : Nat) (hs : List Nat) : Nat :=
  hs.foldl (fun a h => (a * 16 + (hexDigitValue h).getD 0) % 4294967296) v

/-- The same accumulation without the 32-bit reduction. -/
def hexPure (v : Nat) (hs : List Nat) : Nat :=
  hs.foldl (fun a h => a * 16 + (hexDigitValue h).getD 0) v

/-- Uppercase hex digit byte of a value below 16. -/
def toHexDigit (n : Nat) : Nat := if n < 10 then 48 + n else 55 + n

/-- Hex digit bytes of `n`, most significant first, for `n < 16^fuel`. -/
def toHexN : Nat → Nat → List Nat
  | 0, _ => []
  | fuel + 1, n =>
    if n < 16 then [toHexDigit n]
    else toHexN fuel (n / 16) ++ [toHexDigit (n % 16)]

/-- Hex digit bytes of a codepoint (codepoints are below 16^7). -/
def toHex (n : Nat) : List Nat := toHexN 7 n

/-! ## Claim C8: OPL string encoder (modelled) and round-trip -/

/-- Modelled from the spec: the OPL string encoder (the writer side of the
format is not under `src/`).  Per the spec, the reserved separators NUL, tab,
space, `,`, `=` (and the escape introducer `%`) "plus arbitrary Unicode" are
"encoded as %HEX% where HEX is 1-8 hexadecimal digits naming a Unicode
codepoint"; every other (ASCII) codepoint is written as its own byte. -/
def opl_encode_cp (c : Nat) : List Nat :=
  if c < 128 ∧ c ≠ 0 ∧ c ≠ 9 ∧ c ≠ 32 ∧ c ≠ 44 ∧ c ≠ 61 ∧ c ≠ 37 then [c]
  else 37 :: (toHex c ++ [37])

/-- OPL-escaped encoding of a Unicode string (one codepoint per element). -/
def opl_encode (u : List Nat) : List Nat := (u.map opl_encode_cp).flatten

/-- UTF-8 bytes of a Unicode string: what the parser is expected to
reconstruct. -/
def utf8encode (u : List Nat) : List Nat := (u.map append_codepoint_as_utf8).flatten

/-! ## Cursor lemmas -/

@[simp] theorem peek_nil (pos : Nat) : peek [] pos = 0 := by
  simp [peek, List.getD]

@[simp] theorem peek_cons_zero (b : Nat) (l : List Nat) : peek (b :: l) 0 = b := rfl

@[simp] theorem peek_cons_succ (b : Nat) (l : List Nat) (n : Nat) :
    peek (b :: l) (n + 1) = peek l n := rfl

theorem peek_append_right (a b : List Nat) (i : Nat) :
    peek (a ++ b) (a.length + i) = peek b i := by
  induction a with
  | nil => simp
  | cons x xs ih =>
    have : xs.length + 1 + i = (xs.length + i) + 1 := by omega
    simpa [this] using ih

theorem peek_append_left (a b : List Nat) (i : Nat) (h : i < a.length) :
    peek (a ++ b) i = peek a i := by
  induction a generalizing i with
  | nil => simp at h
  | cons x xs ih =>
    cases i with
    | zero => rfl
    | succ j => simpa using ih j (by simpa using h)

theorem peek_eq_zero_of_le_length (line : List Nat) (pos : Nat)
    (h : line.length ≤ pos) : peek line pos = 0 := by
  simp [peek, List.getD, List.getElem?_eq_none h]

/-! ## Claim C1 -/

/-- Every run of the dispatcher lands in one of three shapes: a committed
single entity with result `true`, no commit with result `false`, or an error
with no commit. -/
theorem opl_parse_line_cases (n : Nat) (line : List Nat) (mask : EntityBits) :
    (∃ en, opl_parse_line n line mask = (.ok true, [en])) ∨
    (opl_parse_line n line mask = (.ok false, [])) ∨
    (∃ e, opl_parse_line n line mask = (.error e, [])) := by
  unfold opl_parse_line
  simp only []
  split
  next r es hbody =>
    split at hbody <;> (try split at hbody) <;> (try split at hbody) <;>
      (try split at hbody) <;> (try split at hbody) <;> (try split at hbody) <;>
      (try split at hbody) <;> (try split at hbody) <;> simp_all <;>
      exact ⟨_, hbody.2.symm⟩
  next e hbody =>
    right; right; exact ⟨_, rfl⟩

/-- C1.  For every input line, the dispatcher commits exactly one entity to
the sink when it returns `true`, and none when it returns `false` or fails
with an error: no partial entity is ever committed. -/
theorem opl_parse_line_commit_discipline (n : Nat) (line : List Nat) (mask : EntityBits) :
    ((opl_parse_line n line mask).1 = .ok true →
      (opl_parse_line n line mask).2.length = 1) ∧
    ((opl_parse_line n line mask).1 = .ok false →
      (opl_parse_line n line mask).2 = []) ∧
    (∀ e, (opl_parse_line n line mask).1 = .error e →
      (opl_parse_line n line mask).2 = []) := by
  rcases opl_parse_line_cases n line mask with ⟨en, h⟩ | h | ⟨e, h⟩ <;>
    refine ⟨?_, ?_, ?_⟩ <;> simp [h]

/-- C1, witness: a successfully parsed node line commits exactly one
entity. -/
theorem opl_parse_line_commit_discipline_witness :
    (opl_parse_line 1 (strBytes "n1") EntityBits.all).2.length = 1 :=
  (opl_parse_line_commit_discipline 1 (strBytes "n1") EntityBits.all).1 rfl

/-! ## Claim C6 -/

/-- C6.  A line whose first byte is NUL or `#` (35) is ignored: the
dispatcher returns `false`, commits nothing and raises no error.  A line
whose first byte is outside n/w/r/c/#/NUL fails with `unknown type` at
column 0. -/
theorem opl_parse_line_prefix_dispatch (n : Nat) (line : List Nat) (mask : EntityBits) :
    (peek line 0 = 0 → opl_parse_line n line mask = (.ok false, [])) ∧
    (peek line 0 = 35 → opl_parse_line n line mask = (.ok false, [])) ∧
    (peek line 0 ∉ ([0, 35, 110, 119, 114, 99] : List Nat) →
      opl_parse_line n line mask = (.error ⟨"unknown type", n, 0⟩, [])) := by
  refine ⟨?_, ?_, ?_⟩ <;> intro h
  · unfold opl_parse_line; simp [h]
  · unfold opl_parse_line; simp [h]
  · simp only [List.mem_cons, List.not_mem_nil, or_false, not_or] at h
    obtain ⟨h0, h35, h110, h119, h114, h99⟩ := h
    unfold opl_parse_line
    simp [h0, h35, h110, h119, h114, h99, opl_set_pos]

/-- C6, witness: the empty line, a comment line and an unknown-type line. -/
theorem opl_parse_line_prefix_dispatch_witness :
    opl_parse_line 1 (strBytes "") EntityBits.all = (.ok false, []) ∧
    opl_parse_line 2 (strBytes "# comment") EntityBits.all = (.ok false, []) ∧
    opl_parse_line 3 (strBytes "x1 v1") EntityBits.all =
      (.error ⟨"unknown type", 3, 0⟩, []) :=
  ⟨(opl_parse_line_prefix_dispatch 1 (strBytes "") EntityBits.all).1 rfl,
   (opl_parse_line_prefix_dispatch 2 (strBytes "# comment") EntityBits.all).2.1 rfl,
   (opl_parse_line_prefix_dispatch 3 (strBytes "x1 v1") EntityBits.all).2.2 (by decide)⟩

/-! ## Claim C7 -/

set_option maxRecDepth 4096 in
/-- C7.  Every error surfaced by the dispatcher carries the given line number,
and its column is the byte offset of the failing cursor from the start of the
line, or 0 when the inner error carries no cursor: whenever a dispatched
entity parse fails with inner error `e0`, the surfaced error is exactly
`e0.msg` at line `n`, column `e0.data.getD 0` (and the `unknown type` error is
surfaced at its cursor, offset 0).  In particular, on an unrecognised
attribute letter the entity parser steps the cursor back one byte, so the
column points at the unknown letter itself (offset 3 on a `n1 <letter>...`
line). -/
theorem opl_parse_line_error_position (n : Nat) (line : List Nat) (mask : EntityBits) :
    (∀ e, (opl_parse_line n line mask).1 = .error e → e.line = n) ∧
    (∀ e0 : Err, peek line 0 = 110 → mask.node = true →
      opl_parse_node line (line.length + 2) 1 = .error e0 →
      (opl_parse_line n line mask).1 = .error ⟨e0.msg, n, e0.data.getD 0⟩) ∧
    (∀ e0 : Err, peek line 0 = 119 → mask.way = true →
      opl_parse_way line (line.length + 2) 1 = .error e0 →
      (opl_parse_line n line mask).1 = .error ⟨e0.msg, n, e0.data.getD 0⟩) ∧
    (∀ e0 : Err, peek line 0 = 114 → mask.relation = true →
      opl_parse_relation line (line.length + 2) 1 = .error e0 →
      (opl_parse_line n line mask).1 = .error ⟨e0.msg, n, e0.data.getD 0⟩) ∧
    (∀ e0 : Err, peek line 0 = 99 → mask.changeset = true →
      opl_parse_changeset line (line.length + 2) 1 = .error e0 →
      (opl_parse_line n line mask).1 = .error ⟨e0.msg, n, e0.data.getD 0⟩) ∧
    (peek line 0 ∉ ([0, 35, 110, 119, 114, 99] : List Nat) →
      (opl_parse_line n line mask).1 = .error ⟨"unknown type", n, 0⟩) ∧
    (∀ c : Nat, c < 256 →
      c ∉ ([0, 32, 9, 118, 100, 99, 116, 105, 117, 84, 120, 121] : List Nat) →
      (opl_parse_line 7 [110, 49, 32, c] EntityBits.all).1 =
        .error ⟨"unknown attribute", 7, 3⟩) := by
  refine ⟨?_, ?_, ?_, ?_, ?_, ?_, ?_⟩
  · intro e he
    unfold opl_parse_line at he
    simp only [] at he
    split at he
    · simp at he
    · next e0 hbody =>
      simp only [Prod.fst] at he
      cases he
      rfl
  · intro e0 hpk hmask hfail
    simp [opl_parse_line, hpk, hmask, hfail, opl_set_pos]
  · intro e0 hpk hmask hfail
    simp [opl_parse_line, hpk, hmask, hfail, opl_set_pos]
  · intro e0 hpk hmask hfail
    simp [opl_parse_line, hpk, hmask, hfail, opl_set_pos]
  · intro e0 hpk hmask hfail
    simp [opl_parse_line, hpk, hmask, hfail, opl_set_pos]
  · intro h
    simp only [List.mem_cons, List.not_mem_nil, or_false, not_or] at h
    obtain ⟨h0, h35, h110, h119, h114, h99⟩ := h
    simp [opl_parse_line, h0, h35, h110, h119, h114, h99, opl_set_pos]
  · decide

/-- C7, witness: dispatching `n1 v1 v2` fails inside the node parser with the
cursor-less duplicate-version error, and the dispatcher surfaces it at line 1
column 0; the unknown attribute letter `z` (122) is reported at its own
offset 3. -/
theorem opl_parse_line_error_position_witness :
    (opl_parse_line 1 (strBytes "n1 v1 v2") EntityBits.all).1 =
      .error ⟨"Duplicate attribute: version (v)", 1, 0⟩ ∧
    (opl_parse_line 7 [110, 49, 32, 122] EntityBits.all).1 =
      .error ⟨"unknown attribute", 7, 3⟩ :=
  ⟨(opl_parse_line_error_position 1 (strBytes "n1 v1 v2") EntityBits.all).2.1
      ⟨"Duplicate attribute: version (v)", none⟩ rfl rfl rfl,
   (opl_parse_line_error_position 0 [] EntityBits.all).2.2.2.2.2.2 122
      (by decide) (by decide)⟩

/-! ## Claim C2 -/

/-- C2, counterexample.  The claim says a run of 8 hex digits terminated by
`%` succeeds and that a 0-digit run (`%%`) fails; the code does the opposite:
the loop `while (++length <= 8)` must see the terminating `%` within its 8
iterations, so 8 digits exhaust the loop and throw "hex escape too long"
(cursor at offset 8), while `%%` succeeds immediately, appending the UTF-8
encoding of codepoint 0. -/
theorem escape_bounds_counterexample :
    opl_parse_escaped (strBytes "00000041%") 0 =
      .error ⟨"hex escape too long", some 8⟩ ∧
    opl_parse_escaped (strBytes "%") 0 = .ok ([0], 1) := by
  exact ⟨rfl, rfl⟩

/-! ## Claim C3 -/

/-- C3, counterexample.  On `n1 Tname=Caf%C3%A9` the escape `%C3%` is a
complete percent escape naming codepoint U+00C3 (two UTF-8 bytes 195 131),
after which `A` and `9` are ordinary literal bytes; the committed tag value is
therefore `Caf` ++ [195, 131] ++ `A9`, not the UTF-8 bytes of "Café". -/
theorem cafe_line_counterexample :
    (opl_parse_line 1 (strBytes "n1 Tname=Caf%C3%A9") EntityBits.all).2 =
      [Entity.node cafeWrongNode] ∧
    cafeWrongNode.tags = [([110, 97, 109, 101], [67, 97, 102, 195, 131, 65, 57])] ∧
    [67, 97, 102, 195, 131, 65, 57] ≠ cafeBytes := by
  exact ⟨rfl, rfl, by decide⟩

/-- C3, amended.  Parsing `n1 Tname=Caf%C3%A9` with nodes enabled succeeds
and commits node 1 with exactly one tag whose key is "name" and whose value is
`Caf` ++ UTF-8(U+00C3) ++ `A9` (the escape `%C3%` decodes to the single
codepoint U+00C3 and the following `A9` is literal); the single-escape form
`n1 Tname=Caf%E9%` yields the UTF-8 bytes of "Café". -/
theorem cafe_line_amended :
    opl_parse_line 1 (strBytes "n1 Tname=Caf%C3%A9") EntityBits.all =
      (.ok true, [Entity.node cafeWrongNode]) ∧
    opl_parse_line 1 (strBytes "n1 Tname=Caf%E9%") EntityBits.all =
      (.ok true, [Entity.node cafeRightNode]) := by
  exact ⟨rfl, rfl⟩

/-! ## Claim C4 -/

/-- C4, counterexample.  On `n1 v1 v2` parsing fails with exactly the message
`Duplicate attribute: version (v)`, but the error is thrown without a cursor
(`throw opl_error{"Duplicate attribute: ..."}` passes no data pointer), so the
dispatcher reports column 0 - not the byte offset 6 of the second `v`. -/
theorem duplicate_attribute_column_counterexample :
    (opl_parse_line 1 (strBytes "n1 v1 v2") EntityBits.all).1 =
      .error ⟨"Duplicate attribute: version (v)", 1, 0⟩ ∧
    peek (strBytes "n1 v1 v2") 6 = 118 ∧ (0 : Nat) ≠ 6 := by
  exact ⟨rfl, rfl, by decide⟩

/-- C4, amended.  In every entity parser (node, way, relation, changeset) and
for every attribute letter, once the letter's uniqueness flag is set a second
occurrence of that letter fails with exactly the message
`Duplicate attribute: <name> (<letter>)` and an error that carries no cursor;
the dispatcher therefore reports such errors at column 0 (`opl_set_pos` on a
cursor-less error), shown end to end for `n1 v1 v...` and `c1 k1 k...` at
every line number and line continuation. -/
theorem duplicate_attribute_diagnostic :
    (∀ (line : List Nat) (fuel pos : Nat) (st : NodeSt), st.hasVersion = true →
      node_attr line fuel 118 pos st =
        .error ⟨"Duplicate attribute: version (v)", none⟩) ∧
    (∀ (line : List Nat) (fuel pos : Nat) (st : NodeSt), st.hasVisible = true →
      node_attr line fuel 100 pos st =
        .error ⟨"Duplicate attribute: visible (d)", none⟩) ∧
    (∀ (line : List Nat) (fuel pos : Nat) (st : NodeSt), st.hasChangeset = true →
      node_attr line fuel 99 pos st =
        .error ⟨"Duplicate attribute: changeset_id (c)", none⟩) ∧
    (∀ (line : List Nat) (fuel pos : Nat) (st : NodeSt), st.hasTimestamp = true →
      node_attr line fuel 116 pos st =
        .error ⟨"Duplicate attribute: timestamp (t)", none⟩) ∧
    (∀ (line : List Nat) (fuel pos : Nat) (st : NodeSt), st.hasUid = true →
      node_attr line fuel 105 pos st =
        .error ⟨"Duplicate attribute: uid (i)", none⟩) ∧
    (∀ (line : List Nat) (fuel pos : Nat) (st : NodeSt), st.hasUser = true →
      node_attr line fuel 117 pos st =
        .error ⟨"Duplicate attribute: user (u)", none⟩) ∧
    (∀ (line : List Nat) (fuel pos : Nat) (st : NodeSt), st.hasTags = true →
      node_attr line fuel 84 pos st =
        .error ⟨"Duplicate attribute: tags (T)", none⟩) ∧
    (∀ (line : List Nat) (fuel pos : Nat) (st : NodeSt), st.hasLon = true →
      node_attr line fuel 120 pos st =
        .error ⟨"Duplicate attribute: lon (x)", none⟩) ∧
    (∀ (line : List Nat) (fuel pos : Nat) (st : NodeSt), st.hasLat = true →
      node_attr line fuel 121 pos st =
        .error ⟨"Duplicate attribute: lat (y)", none⟩) ∧
    (∀ (line : List Nat) (fuel pos : Nat) (st : WaySt), st.hasVersion = true →
      way_attr line fuel 118 pos st =
        .error ⟨"Duplicate attribute: version (v)", none⟩) ∧
    (∀ (line : List Nat) (fuel pos : Nat) (st : WaySt), st.hasVisible = true →
      way_attr line fuel 100 pos st =
        .error ⟨"Duplicate attribute: visible (d)", none⟩) ∧
    (∀ (line : List Nat) (fuel pos : Nat) (st : WaySt), st.hasChangeset = true →
      way_attr line fuel 99 pos st =
        .error ⟨"Duplicate attribute: changeset_id (c)", none⟩) ∧
    (∀ (line : List Nat) (fuel pos : Nat) (st : WaySt), st.hasTimestamp = true →
      way_attr line fuel 116 pos st =
        .error ⟨"Duplicate attribute: timestamp (t)", none⟩) ∧
    (∀ (line : List Nat) (fuel pos : Nat) (st : WaySt), st.hasUid = true →
      way_attr line fuel 105 pos st =
        .error ⟨"Duplicate attribute: uid (i)", none⟩) ∧
    (∀ (line : List Nat) (fuel pos : Nat) (st : WaySt), st.hasUser = true →
      way_attr line fuel 117 pos st =
        .error ⟨"Duplicate attribute: user (u)", none⟩) ∧
    (∀ (line : List Nat) (fuel pos : Nat) (st : WaySt), st.hasTags = true →
      way_attr line fuel 84 pos st =
        .error ⟨"Duplicate attribute: tags (T)", none⟩) ∧
    (∀ (line : List Nat) (fuel pos : Nat) (st : WaySt), st.hasNodes = true →
      way_attr line fuel 78 pos st =
        .error ⟨"Duplicate attribute: nodes (N)", none⟩) ∧
    (∀ (line : List Nat) (fuel pos : Nat) (st : RelationSt), st.hasVersion = true →
      relation_attr line fuel 118 pos st =
        .error ⟨"Duplicate attribute: version (v)", none⟩) ∧
    (∀ (line : List Nat) (fuel pos : Nat) (st : RelationSt), st.hasVisible = true →
      relation_attr line fuel 100 pos st =
        .error ⟨"Duplicate attribute: visible (d)", none⟩) ∧
    (∀ (line : List Nat) (fuel pos : Nat) (st : RelationSt), st.hasChangeset = true →
      relation_attr line fuel 99 pos st =
        .error ⟨"Duplicate attribute: changeset_id (c)", none⟩) ∧
    (∀ (line : List Nat) (fuel pos : Nat) (st : RelationSt), st.hasTimestamp = true →
      relation_attr line fuel 116 pos st =
        .error ⟨"Duplicate attribute: timestamp (t)", none⟩) ∧
    (∀ (line : List Nat) (fuel pos : Nat) (st : RelationSt), st.hasUid = true →
      relation_attr line fuel 105 pos st =
        .error ⟨"Duplicate attribute: uid (i)", none⟩) ∧
    (∀ (line : List Nat) (fuel pos : Nat) (st : RelationSt), st.hasUser = true →
      relation_attr line fuel 117 pos st =
        .error ⟨"Duplicate attribute: user (u)", none⟩) ∧
    (∀ (line : List Nat) (fuel pos : Nat) (st : RelationSt), st.hasTags = true →
      relation_attr line fuel 84 pos st =
        .error ⟨"Duplicate attribute: tags (T)", none⟩) ∧
    (∀ (line : List Nat) (fuel pos : Nat) (st : RelationSt), st.hasMembers = true →
      relation_attr line fuel 77 pos st =
        .error ⟨"Duplicate attribute: members (M)", none⟩) ∧
    (∀ (line : List Nat) (fuel pos : Nat) (st : ChangesetSt), st.hasNumChanges = true →
      changeset_attr line fuel 107 pos st =
        .error ⟨"Duplicate attribute: num_changes (k)", none⟩) ∧
    (∀ (line : List Nat) (fuel pos : Nat) (st : ChangesetSt), st.hasCreatedAt = true →
      changeset_attr line fuel 115 pos st =
        .error ⟨"Duplicate attribute: created_at (s)", none⟩) ∧
    (∀ (line : List Nat) (fuel pos : Nat) (st : ChangesetSt), st.hasClosedAt = true →
      changeset_attr line fuel 101 pos st =
        .error ⟨"Duplicate attribute: closed_at (e)", none⟩) ∧
    (∀ (line : List Nat) (fuel pos : Nat) (st : ChangesetSt), st.hasNumComments = true →
      changeset_attr line fuel 100 pos st =
        .error ⟨"Duplicate attribute: num_comments (d)", none⟩) ∧
    (∀ (line : List Nat) (fuel pos : Nat) (st : ChangesetSt), st.hasUid = true →
      changeset_attr line fuel 105 pos st =
        .error ⟨"Duplicate attribute: uid (i)", none⟩) ∧
    (∀ (line : List Nat) (fuel pos : Nat) (st : ChangesetSt), st.hasUser = true →
      changeset_attr line fuel 117 pos st =
        .error ⟨"Duplicate attribute: user (u)", none⟩) ∧
    (∀ (line : List Nat) (fuel pos : Nat) (st : ChangesetSt), st.hasMinX = true →
      changeset_attr line fuel 120 pos st =
        .error ⟨"Duplicate attribute: min_x (x)", none⟩) ∧
    (∀ (line : List Nat) (fuel pos : Nat) (st : ChangesetSt), st.hasMinY = true →
      changeset_attr line fuel 121 pos st =
        .error ⟨"Duplicate attribute: min_y (y)", none⟩) ∧
    (∀ (line : List Nat) (fuel pos : Nat) (st : ChangesetSt), st.hasMaxX = true →
      changeset_attr line fuel 88 pos st =
        .error ⟨"Duplicate attribute: max_x (X)", none⟩) ∧
    (∀ (line : List Nat) (fuel pos : Nat) (st : ChangesetSt), st.hasMaxY = true →
      changeset_attr line fuel 89 pos st =
        .error ⟨"Duplicate attribute: max_y (Y)", none⟩) ∧
    (∀ (line : List Nat) (fuel pos : Nat) (st : ChangesetSt), st.hasTags = true →
      changeset_attr line fuel 84 pos st =
        .error ⟨"Duplicate attribute: tags (T)", none⟩) ∧
    (∀ (e0 : Err) (n : Nat), e0.data = none → opl_set_pos e0 n = ⟨e0.msg, n, 0⟩) ∧
    (∀ (n : Nat) (rest : List Nat),
      (opl_parse_line n (110 :: 49 :: 32 :: 118 :: 49 :: 32 :: 118 :: rest)
          EntityBits.all).1 =
        .error ⟨"Duplicate attribute: version (v)", n, 0⟩) ∧
    (∀ (n : Nat) (rest : List Nat),
      (opl_parse_line n (99 :: 49 :: 32 :: 107 :: 49 :: 32 :: 107 :: rest)
          EntityBits.all).1 =
        .error ⟨"Duplicate attribute: num_changes (k)", n, 0⟩) :=
  ⟨fun line fuel pos st h => by simp [node_attr, h],
   fun line fuel pos st h => by simp [node_attr, h],
   fun line fuel pos st h => by simp [node_attr, h],
   fun line fuel pos st h => by simp [node_attr, h],
   fun line fuel pos st h => by simp [node_attr, h],
   fun line fuel pos st h => by simp [node_attr, h],
   fun line fuel pos st h => by simp [node_attr, h],
   fun line fuel pos st h => by simp [node_attr, h],
   fun line fuel pos st h => by simp [node_attr, h],
   fun line fuel pos st h => by simp [way_attr, h],
   fun line fuel pos st h => by simp [way_attr, h],
   fun line fuel pos st h => by simp [way_attr, h],
   fun line fuel pos st h => by simp [way_attr, h],
   fun line fuel pos st h => by simp [way_attr, h],
   fun line fuel pos st h => by simp [way_attr, h],
   fun line fuel pos st h => by simp [way_attr, h],
   fun line fuel pos st h => by simp [way_attr, h],
   fun line fuel pos st h => by simp [relation_attr, h],
   fun line fuel pos st h => by simp [relation_attr, h],
   fun line fuel pos st h => by simp [relation_attr, h],
   fun line fuel pos st h => by simp [relation_attr, h],
   fun line fuel pos st h => by simp [relation_attr, h],
   fun line fuel pos st h => by simp [relation_attr, h],
   fun line fuel pos st h => by simp [relation_attr, h],
   fun line fuel pos st h => by simp [relation_attr, h],
   fun line fuel pos st h => by simp [changeset_attr, h],
   fun line fuel pos st h => by simp [changeset_attr, h],
   fun line fuel pos st h => by simp [changeset_attr, h],
   fun line fuel pos st h => by simp [changeset_attr, h],
   fun line fuel pos st h => by simp [changeset_attr, h],
   fun line fuel pos st h => by simp [changeset_attr, h],
   fun line fuel pos st h => by simp [changeset_attr, h],
   fun line fuel pos st h => by simp [changeset_attr, h],
   fun line fuel pos st h => by simp [changeset_attr, h],
   fun line fuel pos st h => by simp [changeset_attr, h],
   fun line fuel pos st h => by simp [changeset_attr, h],
   fun e0 n h => by simp [opl_set_pos, h],
   fun n rest => rfl,
   fun n rest => rfl⟩

/-- C4, witness: the node parser's `v` branch on a state whose version flag
is already set raises the cursor-less duplicate-version error. -/
theorem duplicate_attribute_diagnostic_witness :
    node_attr [] 0 118 0 { hasVersion := true } =
      .error ⟨"Duplicate attribute: version (v)", none⟩ :=
  duplicate_attribute_diagnostic.1 [] 0 0 { hasVersion := true } rfl

/-! ## Claim C9 -/

/-- C9.  The coordinate letters set their duplicate-detection flag by mere
presence: a letter immediately followed by NUL, space or tab parses no
coordinate, raises no error and leaves the coordinate at its default
sentinel - `n1 x y` commits node 1 with no location, and a second empty `x`
(`n1 x x`) is a duplicate; a node location is set only when the assembled
location is valid (`n1 x1 y` still commits without a location), while a
changeset bounding box is set regardless (`c1 x y X Y` commits with the
all-sentinel box). -/
theorem coordinate_presence_semantics :
    opl_parse_line 1 (strBytes "n1 x y") EntityBits.all =
      (.ok true, [Entity.node { id := 1, location := none }]) ∧
    (opl_parse_line 1 (strBytes "n1 x x") EntityBits.all).1 =
      .error ⟨"Duplicate attribute: lon (x)", 1, 0⟩ ∧
    opl_parse_line 1 (strBytes "n1 x1 y") EntityBits.all =
      (.ok true, [Entity.node { id := 1, location := none }]) ∧
    opl_parse_line 1 (strBytes "c1 x y X Y") EntityBits.all =
      (.ok true, [Entity.changeset { id := 1, bounds := {} }]) := by
  exact ⟨rfl, rfl, rfl, rfl⟩

/-! ## Integer parsing lemmas (claims C5 and C10) -/

theorem opl_parse_int_go_digits (ds : List Nat) (line : List Nat) (pos n : Nat) (v : Int)
    (hbytes : ∀ i, i < ds.length → peek line (pos + i) = ds.getD i 0)
    (hdig : ∀ d ∈ ds, 48 ≤ d ∧ d ≤ 57)
    (hafter : ¬(48 ≤ peek line (pos + ds.length) ∧ peek line (pos + ds.length) ≤ 57))
    (hlen : ds.length < n) :
    opl_parse_int_go line n pos v = .ok (digitAccum v ds, n - ds.length, pos + ds.length) := by
  induction ds generalizing pos n v with
  | nil =>
    unfold opl_parse_int_go
    simp only [List.length_nil, Nat.add_zero] at hafter ⊢
    rw [if_neg hafter]
    simp [digitAccum]
  | cons d ds ih =>
    have hd : peek line pos = d := by
      have := hbytes 0 (by simp)
      simpa using this
    have hdd : 48 ≤ d ∧ d ≤ 57 := hdig d (by simp)
    obtain ⟨m, rfl⟩ : ∃ m, n = m + 2 := ⟨n - 2, by simp at hlen; omega⟩
    unfold opl_parse_int_go
    rw [hd, if_pos hdd]
    show opl_parse_int_go line (m + 1) (pos + 1) (v * 10 + ((d : Int) - 48)) = _
    have step := ih (pos + 1) (m + 1) (v * 10 + ((d : Int) - 48))
      (fun i hi => by
        have := hbytes (i + 1) (by simpa using Nat.succ_lt_succ hi)
        simpa [Nat.add_assoc, Nat.add_comm 1 i] using this)
      (fun x hx => hdig x (by simp [hx]))
      (by
        have : pos + 1 + ds.length = pos + (d :: ds).length := by simp; omega
        rwa [this])
      (by simp at hlen; omega)
    rw [step]
    have h1 : digitAccum (v * 10 + ((d : Int) - 48)) ds = digitAccum v (d :: ds) := by
      simp [digitAccum]
    have h2 : m + 1 - ds.length = m + 2 - (d :: ds).length := by simp
    have h3 : pos + 1 + ds.length = pos + (d :: ds).length := by simp; omega
    rw [h1, h2, h3]

theorem opl_parse_int_go_throw (k : Nat) (ds line : List Nat) (pos : Nat) (v : Int)
    (hk : 1 ≤ k) (hlen : k ≤ ds.length)
    (hbytes : ∀ i, i < ds.length → peek line (pos + i) = ds.getD i 0)
    (hdig : ∀ d ∈ ds, 48 ≤ d ∧ d ≤ 57) :
    opl_parse_int_go line k pos v = .error ⟨"integer too long", some (pos + (k - 1))⟩ := by
  induction k generalizing ds pos v with
  | zero => omega
  | succ j ih =>
    obtain ⟨d, ds2, rfl⟩ : ∃ d ds2, ds = d :: ds2 := by
      cases ds with
      | nil => simp at hlen
      | cons a b => exact ⟨a, b, rfl⟩
    have hd : peek line pos = d := by
      have := hbytes 0 (by simp)
      simpa using this
    have hdd : 48 ≤ d ∧ d ≤ 57 := hdig d (by simp)
    cases j with
    | zero =>
      unfold opl_parse_int_go
      rw [hd, if_pos hdd]
      show (Except.error ⟨"integer too long", some pos⟩ : Except Err (Int × Nat × Nat)) = _
      norm_num
    | succ m =>
      unfold opl_parse_int_go
      rw [hd, if_pos hdd]
      show opl_parse_int_go line (m + 1) (pos + 1) (v * 10 + ((d : Int) - 48)) = _
      have step := ih ds2 (pos + 1) (v * 10 + ((d : Int) - 48))
        (by omega) (by simp at hlen; omega)
        (fun i hi => by
          have := hbytes (i + 1) (by simpa using Nat.succ_lt_succ hi)
          simpa [Nat.add_assoc, Nat.add_comm 1 i] using this)
        (fun x hx => hdig x (by simp [hx]))
      rw [step]
      have h4 : pos + 1 + (m + 1 - 1) = pos + (m + 1 + 1 - 1) := by omega
      rw [h4]

end Opl

namespace Opl

theorem peek_sign_digits (sign ds rest : List Nat) :
    (∀ i, i < ds.length → peek (sign ++ ds ++ rest) (sign.length + i) = ds.getD i 0) ∧
    peek (sign ++ ds ++ rest) (sign.length + ds.length) = peek rest 0 := by
  constructor
  · intro i hi
    rw [List.append_assoc, peek_append_right, peek_append_left _ _ _ hi]
    rfl
  · show peek ((sign ++ ds) ++ rest) (sign.length + ds.length) = peek rest 0
    have := peek_append_right (sign ++ ds) rest 0
    simpa using this

theorem opl_parse_int_main (tmin tmax : Int) (neg : Bool) (ds rest : List Nat)
    (hdig : ∀ d ∈ ds, 48 ≤ d ∧ d ≤ 57) (hne : ds ≠ [])
    (hafter : ¬(48 ≤ peek rest 0 ∧ peek rest 0 ≤ 57)) (hlen : ds.length ≤ 15) :
    opl_parse_int tmin tmax ((if neg then [45] else []) ++ ds ++ rest) 0 =
      (if neg then
        (if -digitsVal ds < tmin then
          .error ⟨"integer too long", some (1 + ds.length)⟩
         else .ok (-digitsVal ds, 1 + ds.length))
       else
        (if digitsVal ds > tmax then
          .error ⟨"integer too long", some ds.length⟩
         else .ok (digitsVal ds, ds.length))) := by
  obtain ⟨d, ds2, rfl⟩ : ∃ d ds2, ds = d :: ds2 := by
    cases ds with
    | nil => simp at hne
    | cons a b => exact ⟨a, b, rfl⟩
  have hdd : 48 ≤ d ∧ d ≤ 57 := hdig d (by simp)
  have hlen2 : (d :: ds2).length < 16 := by simp at hlen ⊢; omega
  cases neg with
  | false =>
    show opl_parse_int tmin tmax ((d :: ds2) ++ rest) 0 =
      (if digitsVal (d :: ds2) > tmax then
        .error ⟨"integer too long", some (d :: ds2).length⟩
       else .ok (digitsVal (d :: ds2), (d :: ds2).length))
    have hb : ∀ i, i < (d :: ds2).length →
        peek ((d :: ds2) ++ rest) (0 + i) = (d :: ds2).getD i 0 := by
      intro i hi
      rw [Nat.zero_add, peek_append_left _ _ _ hi]
      rfl
    have haf : peek ((d :: ds2) ++ rest) (0 + (d :: ds2).length) = peek rest 0 := by
      rw [Nat.zero_add]
      have := peek_append_right (d :: ds2) rest 0
      simpa using this
    have hgo := opl_parse_int_go_digits (d :: ds2) ((d :: ds2) ++ rest) 0 16 0
      hb hdig (by rw [haf]; exact hafter) hlen2
    have h0 : peek ((d :: ds2) ++ rest) 0 = d := rfl
    have hL : (d :: ds2).length = ds2.length + 1 := List.length_cons d ds2
    simp only [opl_parse_int, h0]
    rw [if_neg (show ¬ d = 0 by omega)]
    rw [if_neg (show ¬ d = 45 by omega)]
    simp only [hgo]
    rw [if_neg (show ¬ 16 - (d :: ds2).length = 16 by omega)]
    rw [if_neg (show ¬ d = 45 by omega)]
    simp [digitsVal]
  | true =>
    show opl_parse_int tmin tmax (45 :: ((d :: ds2) ++ rest)) 0 =
      (if -digitsVal (d :: ds2) < tmin then
        .error ⟨"integer too long", some (1 + (d :: ds2).length)⟩
       else .ok (-digitsVal (d :: ds2), 1 + (d :: ds2).length))
    have hb : ∀ i, i < (d :: ds2).length →
        peek (45 :: ((d :: ds2) ++ rest)) (1 + i) = (d :: ds2).getD i 0 := by
      intro i hi
      rw [Nat.add_comm, peek_cons_succ, peek_append_left _ _ _ hi]
      rfl
    have haf : peek (45 :: ((d :: ds2) ++ rest)) (1 + (d :: ds2).length) = peek rest 0 := by
      rw [Nat.add_comm, peek_cons_succ]
      have := peek_append_right (d :: ds2) rest 0
      simpa using this
    have hgo := opl_parse_int_go_digits (d :: ds2) (45 :: ((d :: ds2) ++ rest)) 1 16 0
      hb hdig (by rw [haf]; exact hafter) hlen2
    have h0 : peek (45 :: ((d :: ds2) ++ rest)) 0 = 45 := rfl
    have hL : (d :: ds2).length = ds2.length + 1 := List.length_cons d ds2
    simp only [opl_parse_int, h0, if_true, Nat.zero_add]
    rw [if_neg (show ¬ (45 : Nat) = 0 by omega)]
    simp only [hgo]
    rw [if_neg (show ¬ 16 - (d :: ds2).length = 16 by omega)]
    simp [digitsVal]

theorem opl_parse_int_overflow (tmin tmax : Int) (neg : Bool) (ds rest : List Nat)
    (hdig : ∀ d ∈ ds, 48 ≤ d ∧ d ≤ 57) (hlen : ds.length = 16) :
    opl_parse_int tmin tmax ((if neg then [45] else []) ++ ds ++ rest) 0 =
      .error ⟨"integer too long", some ((if neg then 1 else 0) + 15)⟩ := by
  obtain ⟨d, ds2, rfl⟩ : ∃ d ds2, ds = d :: ds2 := by
    cases ds with
    | nil => simp at hlen
    | cons a b => exact ⟨a, b, rfl⟩
  have hdd : 48 ≤ d ∧ d ≤ 57 := hdig d (by simp)
  cases neg with
  | false =>
    show opl_parse_int tmin tmax ((d :: ds2) ++ rest) 0 =
      .error ⟨"integer too long", some (0 + 15)⟩
    have hb : ∀ i, i < (d :: ds2).length →
        peek ((d :: ds2) ++ rest) (0 + i) = (d :: ds2).getD i 0 := by
      intro i hi
      rw [Nat.zero_add, peek_append_left _ _ _ hi]
      rfl
    have hthrow := opl_parse_int_go_throw 16 (d :: ds2) ((d :: ds2) ++ rest) 0 0
      (by omega) (by omega) hb hdig
    have h0 : peek ((d :: ds2) ++ rest) 0 = d := rfl
    simp only [opl_parse_int, h0]
    rw [if_neg (show ¬ d = 0 by omega)]
    rw [if_neg (show ¬ d = 45 by omega)]
    simp only [hthrow]
  | true =>
    show opl_parse_int tmin tmax (45 :: ((d :: ds2) ++ rest)) 0 =
      .error ⟨"integer too long", some (1 + 15)⟩
    have hb : ∀ i, i < (d :: ds2).length →
        peek (45 :: ((d :: ds2) ++ rest)) (1 + i) = (d :: ds2).getD i 0 := by
      intro i hi
      rw [Nat.add_comm, peek_cons_succ, peek_append_left _ _ _ hi]
      rfl
    have hthrow := opl_parse_int_go_throw 16 (d :: ds2) (45 :: ((d :: ds2) ++ rest)) 1 0
      (by omega) (by omega) hb hdig
    have h0 : peek (45 :: ((d :: ds2) ++ rest)) 0 = 45 := rfl
    simp only [opl_parse_int, h0, if_true, Nat.zero_add]
    rw [if_neg (show ¬ (45 : Nat) = 0 by omega)]
    simp only [hthrow]

theorem opl_parse_int_empty (tmin tmax : Int) (line : List Nat)
    (hnd : ¬(48 ≤ peek line (if peek line 0 = 45 then 1 else 0) ∧
      peek line (if peek line 0 = 45 then 1 else 0) ≤ 57)) :
    opl_parse_int tmin tmax line 0 =
      .error ⟨"expected integer", some (if peek line 0 = 45 then 1 else 0)⟩ := by
  by_cases h0 : peek line 0 = 0
  · have h45 : ¬ peek line 0 = 45 := by omega
    simp only [opl_parse_int, if_pos h0, if_neg h45]
  · by_cases h45 : peek line 0 = 45
    · simp only [if_pos h45] at hnd ⊢
      have hgo := opl_parse_int_go_digits [] line 1 16 0
        (fun i hi => absurd hi (by simp)) (by simp) (by simpa using hnd) (by simp)
      simp only [opl_parse_int, if_neg h0, if_pos h45, Nat.zero_add]
      simp only [hgo]
      simp [digitAccum]
    · simp only [if_neg h45] at hnd ⊢
      have hgo := opl_parse_int_go_digits [] line 0 16 0
        (fun i hi => absurd hi (by simp)) (by simp) (by simpa using hnd) (by simp)
      simp only [opl_parse_int, if_neg h0, if_neg h45]
      simp only [hgo]
      simp [digitAccum]

/-! ## Claim C5 -/

/-- C5.  `opl_parse_int` parses `-?[0-9]{1,15}` exactly: a 1-15 digit run
whose signed value respects the target bounds yields that value with the
cursor advanced past the digits; a 16th digit or an out-of-range value fails
with `integer too long`; an empty digit run (empty input, lone `-`, or a
non-digit first character) fails with `expected integer`. -/
theorem opl_parse_int_spec (tmin tmax : Int) :
    (∀ (neg : Bool) (ds rest : List Nat),
      (∀ d ∈ ds, 48 ≤ d ∧ d ≤ 57) → 1 ≤ ds.length → ds.length ≤ 15 →
      ¬(48 ≤ peek rest 0 ∧ peek rest 0 ≤ 57) →
      tmin ≤ (if neg then -digitsVal ds else digitsVal ds) →
      (if neg then -digitsVal ds else digitsVal ds) ≤ tmax →
      opl_parse_int tmin tmax ((if neg then [45] else []) ++ ds ++ rest) 0 =
        .ok ((if neg then -digitsVal ds else digitsVal ds),
          (if neg then 1 else 0) + ds.length)) ∧
    (∀ (neg : Bool) (ds rest : List Nat),
      (∀ d ∈ ds, 48 ≤ d ∧ d ≤ 57) → ds.length = 16 →
      opl_parse_int tmin tmax ((if neg then [45] else []) ++ ds ++ rest) 0 =
        .error ⟨"integer too long", some ((if neg then 1 else 0) + 15)⟩) ∧
    (∀ (ds rest : List Nat),
      (∀ d ∈ ds, 48 ≤ d ∧ d ≤ 57) → 1 ≤ ds.length → ds.length ≤ 15 →
      ¬(48 ≤ peek rest 0 ∧ peek rest 0 ≤ 57) →
      (-digitsVal ds < tmin →
        opl_parse_int tmin tmax (45 :: (ds ++ rest)) 0 =
          .error ⟨"integer too long", some (1 + ds.length)⟩) ∧
      (digitsVal ds > tmax →
        opl_parse_int tmin tmax (ds ++ rest) 0 =
          .error ⟨"integer too long", some ds.length⟩)) ∧
    (∀ line : List Nat,
      ¬(48 ≤ peek line (if peek line 0 = 45 then 1 else 0) ∧
        peek line (if peek line 0 = 45 then 1 else 0) ≤ 57) →
      opl_parse_int tmin tmax line 0 =
        .error ⟨"expected integer", some (if peek line 0 = 45 then 1 else 0)⟩) := by
  refine ⟨?_, ?_, ?_, opl_parse_int_empty tmin tmax⟩
  · intro neg ds rest hdig h1 h15 haf hmin hmax
    have hne : ds ≠ [] := by cases ds <;> simp_all
    have hm := opl_parse_int_main tmin tmax neg ds rest hdig hne haf h15
    rw [hm]
    cases neg with
    | false =>
      simp only [Bool.false_eq_true, if_false] at hmin hmax ⊢
      rw [if_neg (by omega : ¬ digitsVal ds > tmax)]
      simp
    | true =>
      simp only [if_true] at hmin hmax ⊢
      rw [if_neg (by omega : ¬ -digitsVal ds < tmin)]
  · intro neg ds rest hdig h16
    exact opl_parse_int_overflow tmin tmax neg ds rest hdig h16
  · intro ds rest hdig h1 h15 haf
    have hne : ds ≠ [] := by cases ds <;> simp_all
    constructor
    · intro hlt
      have hm := opl_parse_int_main tmin tmax true ds rest hdig hne haf h15
      rw [show (45 :: (ds ++ rest) : List Nat) =
        (if true then [45] else []) ++ ds ++ rest from rfl]
      rw [hm]
      simp only [if_true]
      rw [if_pos hlt]
    · intro hgt
      have hm := opl_parse_int_main tmin tmax false ds rest hdig hne haf h15
      rw [show (ds ++ rest : List Nat) =
        (if false then [45] else []) ++ ds ++ rest from rfl]
      rw [hm]
      simp only [Bool.false_eq_true, if_false]
      rw [if_pos hgt]

/-- C5, witness: parsing the two-digit string `42` with the signed 64-bit
bounds yields 42 and the cursor lands past both digits. -/
theorem opl_parse_int_spec_witness :
    opl_parse_int int64_min int64_max [52, 50] 0 = .ok (42, 2) :=
  (opl_parse_int_spec int64_min int64_max).1 false [52, 50] []
    (by decide) (by decide) (by decide) (by decide) (by decide) (by decide)

/-! ## Claim C10 -/

theorem opl_parse_int_go_bound :
    ∀ (n : Nat) (line : List Nat) (pos : Nat) (v : Int), 1 ≤ n → n ≤ 16 → 0 ≤ v →
      v < 10 ^ (16 - n) →
      ∀ v2 n2 p2, opl_parse_int_go line n pos v = .ok (v2, n2, p2) →
      1 ≤ n2 ∧ 0 ≤ v2 ∧ v2 < 10 ^ (16 - n2) ∧ v2 ≤ 10 ^ 15 - 1 := by
  intro n
  induction n using Nat.strong_induction_on with
  | _ n ih =>
    intro line pos v h1 h16 hv hvb v2 n2 p2 hgo
    unfold opl_parse_int_go at hgo
    by_cases hd : 48 ≤ peek line pos ∧ peek line pos ≤ 57
    · rw [if_pos hd] at hgo
      match n, h1, h16, hvb, hgo with
      | 1, h1, h16, hvb, hgo => exact absurd hgo (by simp)
      | (m + 2), h1, h16, hvb, hgo =>
        replace hgo : opl_parse_int_go line (m + 1) (pos + 1)
            (v * 10 + ((peek line pos : Int) - 48)) = .ok (v2, n2, p2) := hgo
        have hp48 : (48 : Int) ≤ (peek line pos : Int) := by exact_mod_cast hd.1
        have hp57 : ((peek line pos : Int)) ≤ 57 := by exact_mod_cast hd.2
        have hpow : (10 : Int) ^ (16 - (m + 1)) = 10 * 10 ^ (16 - (m + 2)) := by
          rw [show 16 - (m + 1) = (16 - (m + 2)) + 1 by omega, pow_succ]
          ring
        exact ih (m + 1) (by omega) line (pos + 1) _ (by omega) (by omega)
          (by omega) (by rw [hpow]; omega) v2 n2 p2 hgo
    · rw [if_neg hd] at hgo
      obtain ⟨rfl, rfl, rfl⟩ : v = v2 ∧ n = n2 ∧ pos = p2 := by
        simpa [Prod.ext_iff] using hgo
      have hle : (10 : Int) ^ (16 - n) ≤ 10 ^ 15 :=
        pow_le_pow_right₀ (by norm_num) (by omega)
      exact ⟨h1, hv, hvb, by omega⟩

/-- C10.  The signed 64-bit accumulator of `opl_parse_int` never overflows:
the digit loop preserves the invariant `value < 10^(16-n)` (and throws before
accumulating a 16th digit), so every accumulated magnitude is at most
10^15 - 1, and the final value after sign application lies strictly within
the int64 range. -/
theorem opl_parse_int_accumulator_bound :
    (∀ (line : List Nat) (pos n : Nat) (v : Int), 1 ≤ n → n ≤ 16 → 0 ≤ v →
      v < 10 ^ (16 - n) →
      ∀ v2 n2 p2, opl_parse_int_go line n pos v = .ok (v2, n2, p2) →
      1 ≤ n2 ∧ 0 ≤ v2 ∧ v2 < 10 ^ (16 - n2) ∧ v2 ≤ 10 ^ 15 - 1) ∧
    (∀ (tmin tmax : Int) (line : List Nat) (pos : Nat) (v : Int) (p : Nat),
      opl_parse_int tmin tmax line pos = .ok (v, p) →
      -(10 ^ 15 - 1) ≤ v ∧ v ≤ 10 ^ 15 - 1 ∧ -(2 ^ 63) < v ∧ v < 2 ^ 63) := by
  constructor
  · intro line pos n
    exact opl_parse_int_go_bound n line pos
  · intro tmin tmax line pos v p h
    simp only [opl_parse_int] at h
    split at h
    · exact absurd h (by simp)
    · split at h
      next e heq => exact absurd h (by simp)
      next value n2 pos2 heq =>
        have hbound := opl_parse_int_go_bound 16 line _ 0 (by omega) (by omega)
          (by omega) (by norm_num) value n2 pos2 heq
        have e15 : (10 : Int) ^ 15 = 1000000000000000 := by norm_num
        have e63 : (2 : Int) ^ 63 = 9223372036854775808 := by norm_num
        split at h
        · exact absurd h (by simp)
        · split at h
          · split at h
            · exact absurd h (by simp)
            · obtain ⟨rfl, rfl⟩ : -value = v ∧ pos2 = p := by
                simpa [Prod.ext_iff] using h
              refine ⟨by omega, by omega, by omega, by omega⟩
          · split at h
            · exact absurd h (by simp)
            · obtain ⟨rfl, rfl⟩ : value = v ∧ pos2 = p := by
                simpa [Prod.ext_iff] using h
              refine ⟨by omega, by omega, by omega, by omega⟩

/-- C10, witness: the value parsed from `123` is within all the bounds. -/
theorem opl_parse_int_accumulator_bound_witness :
    -(10 ^ 15 - 1) ≤ (123 : Int) ∧ (123 : Int) ≤ 10 ^ 15 - 1 ∧
      -(2 ^ 63) < (123 : Int) ∧ (123 : Int) < 2 ^ 63 :=
  opl_parse_int_accumulator_bound.2 int64_min int64_max [49, 50, 51] 0 123 3 rfl

theorem hexDigitValue_toHexDigit (n : Nat) (h : n < 16) :
    hexDigitValue (toHexDigit n) = some n := by
  unfold toHexDigit hexDigitValue
  by_cases h10 : n < 10
  · rw [if_pos h10, if_pos (⟨by omega, by omega⟩ : 48 ≤ 48 + n ∧ 48 + n ≤ 57)]
    congr 1
    omega
  · rw [if_neg h10, if_neg (by omega : ¬(48 ≤ 55 + n ∧ 55 + n ≤ 57)),
      if_neg (by omega : ¬(97 ≤ 55 + n ∧ 55 + n ≤ 102)),
      if_pos (⟨by omega, by omega⟩ : 65 ≤ 55 + n ∧ 55 + n ≤ 70)]
    congr 1
    omega

theorem toHexDigit_ok (n : Nat) (h : n < 16) :
    (hexDigitValue (toHexDigit n)).isSome = true ∧ 48 ≤ toHexDigit n := by
  refine ⟨by rw [hexDigitValue_toHexDigit n h]; rfl, ?_⟩
  unfold toHexDigit
  by_cases h10 : n < 10
  · simp [h10]
  · simp [h10]
    omega

theorem toHexN_ok (fuel n : Nat) :
    ∀ h ∈ toHexN fuel n, (hexDigitValue h).isSome = true ∧ 48 ≤ h := by
  induction fuel generalizing n with
  | zero => simp [toHexN]
  | succ f ih =>
    intro h hmem
    unfold toHexN at hmem
    by_cases h16 : n < 16
    · rw [if_pos h16] at hmem
      simp at hmem
      subst hmem
      exact toHexDigit_ok n h16
    · rw [if_neg h16] at hmem
      simp at hmem
      rcases hmem with hmem | hmem
      · exact ih (n / 16) h hmem
      · subst hmem
        exact toHexDigit_ok _ (Nat.mod_lt _ (by omega))

theorem toHexN_length (fuel n : Nat) (h : n < 16 ^ fuel) :
    (toHexN fuel n).length ≤ fuel := by
  induction fuel generalizing n with
  | zero => simp [toHexN]
  | succ f ih =>
    unfold toHexN
    by_cases h16 : n < 16
    · rw [if_pos h16]; simp
    · rw [if_neg h16]
      have : n / 16 < 16 ^ f := by
        rw [Nat.div_lt_iff_lt_mul (by omega)]
        calc n < 16 ^ (f + 1) := h
        _ = 16 ^ f * 16 := by rw [pow_succ]
      have := ih (n / 16) this
      simp
      omega

theorem hexPure_toHexN (fuel n : Nat) (h : n < 16 ^ fuel) :
    hexPure 0 (toHexN fuel n) = n := by
  induction fuel generalizing n with
  | zero =>
    simp at h
    simp [toHexN, hexPure, h]
  | succ f ih =>
    unfold toHexN
    by_cases h16 : n < 16
    · rw [if_pos h16]
      simp [hexPure, hexDigitValue_toHexDigit n h16]
    · rw [if_neg h16]
      have hdiv : n / 16 < 16 ^ f := by
        rw [Nat.div_lt_iff_lt_mul (by omega)]
        calc n < 16 ^ (f + 1) := h
        _ = 16 ^ f * 16 := by rw [pow_succ]
      unfold hexPure
      rw [List.foldl_append]
      have hrec : List.foldl (fun a h => a * 16 + (hexDigitValue h).getD 0) 0
          (toHexN f (n / 16)) = n / 16 := ih (n / 16) hdiv
      rw [hrec]
      simp [hexDigitValue_toHexDigit _ (Nat.mod_lt n (by omega))]
      omega

theorem hexPure_le (hs : List Nat) (a : Nat) : a ≤ hexPure a hs := by
  induction hs generalizing a with
  | nil => simp [hexPure]
  | cons h hs ih =>
    calc a ≤ a * 16 + (hexDigitValue h).getD 0 := by omega
    _ ≤ hexPure (a * 16 + (hexDigitValue h).getD 0) hs := ih _
    _ = hexPure a (h :: hs) := by simp [hexPure]

theorem hexAccum_eq_hexPure (hs : List Nat) (v : Nat) (h : hexPure v hs < 4294967296) :
    hexAccum v hs = hexPure v hs := by
  induction hs generalizing v with
  | nil => simp [hexAccum, hexPure]
  | cons x hs ih =>
    have hstep : hexPure v (x :: hs) = hexPure (v * 16 + (hexDigitValue x).getD 0) hs := by
      simp [hexPure]
    have hlt : v * 16 + (hexDigitValue x).getD 0 < 4294967296 := by
      have := hexPure_le hs (v * 16 + (hexDigitValue x).getD 0)
      rw [hstep] at h
      omega
    have hmod : (v * 16 + (hexDigitValue x).getD 0) % 4294967296 =
        v * 16 + (hexDigitValue x).getD 0 := Nat.mod_eq_of_lt hlt
    unfold hexAccum
    simp only [List.foldl_cons, hmod]
    rw [hstep] at h
    exact ih _ h

theorem hexAccum_toHex (c : Nat) (h : c < 16777216) : hexAccum 0 (toHex c) = c := by
  have h7 : c < 16 ^ 7 := by norm_num; omega
  have hp := hexPure_toHexN 7 c h7
  rw [toHex, hexAccum_eq_hexPure _ _ (by rw [hp]; omega), hp]

theorem opl_parse_escaped_go_hex (hs : List Nat) :
    ∀ (fuel : Nat) (line : List Nat) (pos v : Nat),
      (∀ i, i < hs.length → peek line (pos + i) = hs.getD i 0) →
      (∀ h ∈ hs, (hexDigitValue h).isSome = true ∧ 48 ≤ h) →
      peek line (pos + hs.length) = 37 →
      hs.length < fuel →
      opl_parse_escaped_go line fuel pos v = .ok (hexAccum v hs, pos + hs.length + 1) := by
  induction hs with
  | nil =>
    intro fuel line pos v hb hok hterm hlen
    obtain ⟨f, rfl⟩ : ∃ f, fuel = f + 1 := ⟨fuel - 1, by omega⟩
    have h37 : peek line pos = 37 := by simpa using hterm
    unfold opl_parse_escaped_go
    rw [h37]
    simp [hexAccum]
  | cons x hs ih =>
    intro fuel line pos v hb hok hterm hlen
    obtain ⟨f, rfl⟩ : ∃ f, fuel = f + 1 := ⟨fuel - 1, by omega⟩
    have hx : peek line pos = x := by simpa using hb 0 (by simp)
    obtain ⟨hxsome, hx48⟩ := hok x (by simp)
    obtain ⟨d, hd⟩ : ∃ d, hexDigitValue x = some d := by
      cases hv : hexDigitValue x with
      | none => rw [hv] at hxsome; simp at hxsome
      | some d => exact ⟨d, rfl⟩
    have hx37 : ¬ x = 37 := by omega
    have hx0 : ¬ x = 0 := by omega
    unfold opl_parse_escaped_go
    rw [hx, if_neg hx0, if_neg hx37, hd]
    show opl_parse_escaped_go line f (pos + 1) ((v * 16 + d) % 4294967296) = _
    have step := ih f line (pos + 1) ((v * 16 + d) % 4294967296)
      (fun i hi => by
        have := hb (i + 1) (by simpa using Nat.succ_lt_succ hi)
        simpa [Nat.add_assoc, Nat.add_comm 1 i] using this)
      (fun y hy => hok y (by simp [hy]))
      (by
        have : pos + 1 + hs.length = pos + (x :: hs).length := by simp; omega
        rwa [this])
      (by simp at hlen; omega)
    rw [step]
    have hacc : hexAccum ((v * 16 + d) % 4294967296) hs = hexAccum v (x :: hs) := by
      simp [hexAccum, hd]
    have hpos : pos + 1 + hs.length + 1 = pos + (x :: hs).length + 1 := by simp; omega
    rw [hacc, hpos]

theorem opl_parse_escaped_go_overflow :
    ∀ (fuel : Nat) (hs line : List Nat) (pos v : Nat),
      hs.length = fuel →
      (∀ i, i < hs.length → peek line (pos + i) = hs.getD i 0) →
      (∀ h ∈ hs, (hexDigitValue h).isSome = true ∧ 48 ≤ h) →
      opl_parse_escaped_go line fuel pos v =
        .error ⟨"hex escape too long", some (pos + fuel)⟩ := by
  intro fuel
  induction fuel with
  | zero =>
    intro hs line pos v hlen hb hok
    unfold opl_parse_escaped_go
    norm_num
  | succ f ih =>
    intro hs line pos v hlen hb hok
    obtain ⟨x, hs2, rfl⟩ : ∃ x hs2, hs = x :: hs2 := by
      cases hs with
      | nil => simp at hlen
      | cons a b => exact ⟨a, b, rfl⟩
    have hx : peek line pos = x := by simpa using hb 0 (by simp)
    obtain ⟨hxsome, hx48⟩ := hok x (by simp)
    obtain ⟨d, hd⟩ : ∃ d, hexDigitValue x = some d := by
      cases hv : hexDigitValue x with
      | none => rw [hv] at hxsome; simp at hxsome
      | some d => exact ⟨d, rfl⟩
    unfold opl_parse_escaped_go
    rw [hx, if_neg (by omega : ¬ x = 0), if_neg (by omega : ¬ x = 37), hd]
    show opl_parse_escaped_go line f (pos + 1) ((v * 16 + d) % 4294967296) = _
    have step := ih hs2 line (pos + 1) ((v * 16 + d) % 4294967296)
      (by simp at hlen; omega)
      (fun i hi => by
        have := hb (i + 1) (by simpa using Nat.succ_lt_succ hi)
        simpa [Nat.add_assoc, Nat.add_comm 1 i] using this)
      (fun y hy => hok y (by simp [hy]))
    rw [step]
    have : pos + 1 + f = pos + (f + 1) := by omega
    rw [this]

/-! ## Claim C2 (amended theorem) -/

/-- C2, amended.  A run of n hex digits terminated by `%` succeeds exactly
when 0 ≤ n ≤ 7, appending the UTF-8 encoding of the accumulated codepoint; a
run reaching an 8th hex digit fails with `hex escape too long`, the cursor 8
bytes past the start of the escape. -/
theorem opl_parse_escaped_digit_bounds :
    (∀ (hs rest : List Nat),
      (∀ h ∈ hs, (hexDigitValue h).isSome = true ∧ 48 ≤ h) → hs.length ≤ 7 →
      opl_parse_escaped (hs ++ 37 :: rest) 0 =
        .ok (append_codepoint_as_utf8 (hexAccum 0 hs), hs.length + 1)) ∧
    (∀ (hs rest : List Nat),
      (∀ h ∈ hs, (hexDigitValue h).isSome = true ∧ 48 ≤ h) → hs.length = 8 →
      opl_parse_escaped (hs ++ rest) 0 = .error ⟨"hex escape too long", some 8⟩) := by
  constructor
  · intro hs rest hok hlen
    have hb : ∀ i, i < hs.length → peek (hs ++ 37 :: rest) (0 + i) = hs.getD i 0 := by
      intro i hi
      rw [Nat.zero_add, peek_append_left _ _ _ hi]
      rfl
    have hterm : peek (hs ++ 37 :: rest) (0 + hs.length) = 37 := by
      rw [Nat.zero_add]
      have := peek_append_right hs (37 :: rest) 0
      simpa using this
    have hgo := opl_parse_escaped_go_hex hs 8 (hs ++ 37 :: rest) 0 0 hb hok hterm
      (by omega)
    simp only [opl_parse_escaped, hgo]
    norm_num
  · intro hs rest hok hlen
    have hb : ∀ i, i < hs.length → peek (hs ++ rest) (0 + i) = hs.getD i 0 := by
      intro i hi
      rw [Nat.zero_add, peek_append_left _ _ _ hi]
      rfl
    have hgo := opl_parse_escaped_go_overflow 8 hs (hs ++ rest) 0 0 hlen hb hok
    simp only [opl_parse_escaped, hgo]

/-- C2, witness: the two-digit escape `41%` decodes to the byte `A`, using 3
input bytes. -/
theorem opl_parse_escaped_digit_bounds_witness :
    opl_parse_escaped [52, 49, 37] 0 = .ok ([65], 3) :=
  opl_parse_escaped_digit_bounds.1 [52, 49] [] (by decide) (by decide)

/-! ## Claim C8 (round-trip theorems) -/

theorem append_codepoint_as_utf8_small (c : Nat) (h : c < 128) :
    append_codepoint_as_utf8 c = [c] := by
  simp [append_codepoint_as_utf8, h]

theorem opl_parse_string_go_verbatim (bs : List Nat) :
    ∀ (pre rest acc : List Nat) (fuel : Nat),
      (∀ b ∈ bs, b ≠ 0 ∧ b ≠ 32 ∧ b ≠ 9 ∧ b ≠ 44 ∧ b ≠ 61 ∧ b ≠ 37) →
      (peek rest 0 = 0 ∨ peek rest 0 = 32 ∨ peek rest 0 = 9 ∨
        peek rest 0 = 44 ∨ peek rest 0 = 61) →
      bs.length < fuel →
      opl_parse_string_go (pre ++ (bs ++ rest)) fuel pre.length acc =
        .ok (acc ++ bs, pre.length + bs.length) := by
  induction bs with
  | nil =>
    intro pre rest acc fuel hok hterm hlen
    obtain ⟨f, rfl⟩ : ∃ f, fuel = f + 1 := ⟨fuel - 1, by omega⟩
    have hp : peek (pre ++ ([] ++ rest)) pre.length = peek rest 0 := by
      have := peek_append_right pre ([] ++ rest) 0
      simpa using this
    unfold opl_parse_string_go
    rw [hp, if_pos hterm]
    simp
  | cons b bs ih =>
    intro pre rest acc fuel hok hterm hlen
    obtain ⟨f, rfl⟩ : ∃ f, fuel = f + 1 := ⟨fuel - 1, by omega⟩
    obtain ⟨hb0, hb32, hb9, hb44, hb61, hb37⟩ := hok b (by simp)
    have hp : peek (pre ++ ((b :: bs) ++ rest)) pre.length = b := by
      have := peek_append_right pre ((b :: bs) ++ rest) 0
      simpa using this
    unfold opl_parse_string_go
    rw [hp, if_neg (by tauto : ¬(b = 0 ∨ b = 32 ∨ b = 9 ∨ b = 44 ∨ b = 61)),
      if_neg hb37]
    have hline : pre ++ ((b :: bs) ++ rest) = (pre ++ [b]) ++ (bs ++ rest) := by
      simp
    have hpos : pre.length + 1 = (pre ++ [b]).length := by simp
    rw [hline, hpos]
    have step := ih (pre ++ [b]) rest (acc ++ [b]) f
      (fun y hy => hok y (by simp [hy])) hterm (by simp at hlen; omega)
    rw [step]
    simp
    omega

theorem opl_parse_string_go_encode (u : List Nat) :
    ∀ (pre rest acc : List Nat) (fuel : Nat),
      (∀ c ∈ u, c < 1114112) →
      (peek rest 0 = 0 ∨ peek rest 0 = 32 ∨ peek rest 0 = 9 ∨
        peek rest 0 = 44 ∨ peek rest 0 = 61) →
      (opl_encode u).length < fuel →
      opl_parse_string_go (pre ++ (opl_encode u ++ rest)) fuel pre.length acc =
        .ok (acc ++ utf8encode u, pre.length + (opl_encode u).length) := by
  induction u with
  | nil =>
    intro pre rest acc fuel hcp hterm hlen
    obtain ⟨f, rfl⟩ : ∃ f, fuel = f + 1 := ⟨fuel - 1, by omega⟩
    have hp : peek (pre ++ (opl_encode [] ++ rest)) pre.length = peek rest 0 := by
      have := peek_append_right pre (opl_encode [] ++ rest) 0
      simpa [opl_encode] using this
    unfold opl_parse_string_go
    rw [hp, if_pos hterm]
    simp [opl_encode, utf8encode]
  | cons c u ih =>
    intro pre rest acc fuel hcp hterm hlen
    obtain ⟨f, rfl⟩ : ∃ f, fuel = f + 1 := ⟨fuel - 1, by omega⟩
    have hc : c < 1114112 := hcp c (by simp)
    have henc : opl_encode (c :: u) = opl_encode_cp c ++ opl_encode u := by
      simp [opl_encode]
    have hutf : utf8encode (c :: u) = append_codepoint_as_utf8 c ++ utf8encode u := by
      simp [utf8encode]
    by_cases hplain : c < 128 ∧ c ≠ 0 ∧ c ≠ 9 ∧ c ≠ 32 ∧ c ≠ 44 ∧ c ≠ 61 ∧ c ≠ 37
    · have hec : opl_encode_cp c = [c] := by rw [opl_encode_cp, if_pos hplain]
      obtain ⟨hlt, h0, h9, h32, h44, h61, h37⟩ := hplain
      have hp : peek (pre ++ (opl_encode (c :: u) ++ rest)) pre.length = c := by
        have := peek_append_right pre (opl_encode (c :: u) ++ rest) 0
        simpa [henc, hec] using this
      unfold opl_parse_string_go
      rw [hp, if_neg (by tauto : ¬(c = 0 ∨ c = 32 ∨ c = 9 ∨ c = 44 ∨ c = 61)),
        if_neg h37]
      have hline : pre ++ (opl_encode (c :: u) ++ rest) =
          (pre ++ [c]) ++ (opl_encode u ++ rest) := by
        simp [henc, hec]
      have hpos : pre.length + 1 = (pre ++ [c]).length := by simp
      rw [hline, hpos]
      have step := ih (pre ++ [c]) rest (acc ++ [c]) f
        (fun y hy => hcp y (by simp [hy])) hterm
        (by rw [henc, hec] at hlen; simp at hlen ⊢; omega)
      rw [step]
      rw [hutf, append_codepoint_as_utf8_small c hlt]
      simp [henc, hec]
      omega
    · have hec : opl_encode_cp c = 37 :: (toHex c ++ [37]) := by
        rw [opl_encode_cp, if_neg hplain]
      have hp : peek (pre ++ (opl_encode (c :: u) ++ rest)) pre.length = 37 := by
        have := peek_append_right pre (opl_encode (c :: u) ++ rest) 0
        simpa [henc, hec] using this
      unfold opl_parse_string_go
      rw [hp, if_neg (by norm_num : ¬((37 : Nat) = 0 ∨ (37 : Nat) = 32 ∨
        (37 : Nat) = 9 ∨ (37 : Nat) = 44 ∨ (37 : Nat) = 61)), if_pos rfl]
      have hc7 : c < 16777216 := by omega
      have hc16 : c < 16 ^ 7 := by norm_num; omega
      have hline : pre ++ (opl_encode (c :: u) ++ rest) =
          (pre ++ [37]) ++ (toHex c ++ (37 :: (opl_encode u ++ rest))) := by
        simp [henc, hec]
      have hb : ∀ i, i < (toHex c).length →
          peek ((pre ++ [37]) ++ (toHex c ++ (37 :: (opl_encode u ++ rest))))
            ((pre ++ [37]).length + i) = (toHex c).getD i 0 := by
        intro i hi
        rw [peek_append_right, peek_append_left _ _ _ hi]
        rfl
      have hterm2 : peek ((pre ++ [37]) ++ (toHex c ++ (37 :: (opl_encode u ++ rest))))
          ((pre ++ [37]).length + (toHex c).length) = 37 := by
        rw [peek_append_right]
        have := peek_append_right (toHex c) (37 :: (opl_encode u ++ rest)) 0
        simpa using this
      have hlen7 : (toHex c).length ≤ 7 := toHexN_length 7 c hc16
      have hesc := opl_parse_escaped_go_hex (toHex c) 8
        ((pre ++ [37]) ++ (toHex c ++ (37 :: (opl_encode u ++ rest))))
        (pre ++ [37]).length 0 hb (toHexN_ok 7 c) hterm2 (by omega)
      have hesc2 : opl_parse_escaped
          ((pre ++ [37]) ++ (toHex c ++ (37 :: (opl_encode u ++ rest))))
          (pre ++ [37]).length =
          .ok (append_codepoint_as_utf8 c,
            (pre ++ [37]).length + (toHex c).length + 1) := by
        simp only [opl_parse_escaped, hesc, hexAccum_toHex c hc7]
      have hpos : pre.length + 1 = (pre ++ [37]).length := by simp
      rw [hline, hpos]
      simp only [hesc2]
      have hline2 : (pre ++ [37]) ++ (toHex c ++ (37 :: (opl_encode u ++ rest))) =
          (pre ++ opl_encode_cp c) ++ (opl_encode u ++ rest) := by
        simp [hec]
      have hpos2 : (pre ++ [37]).length + (toHex c).length + 1 =
          (pre ++ opl_encode_cp c).length := by
        rw [hec]
        simp
        omega
      rw [hline2, hpos2]
      have step := ih (pre ++ opl_encode_cp c) rest
        (acc ++ append_codepoint_as_utf8 c) f
        (fun y hy => hcp y (by simp [hy])) hterm
        (by rw [henc, hec] at hlen; simp at hlen ⊢; omega)
      rw [step]
      rw [hutf]
      rw [henc]
      simp
      omega

/-- C8.  Round trip: parsing the OPL-escaped encoding of any Unicode string
`u` yields exactly the UTF-8 bytes of `u`, stopping at (and not consuming)
the terminating NUL/space/tab/`,`/`=`; moreover any run of bytes outside the
reserved set is appended to the output verbatim. -/
theorem opl_parse_string_roundtrip :
    (∀ (u rest : List Nat) (fuel : Nat),
      (∀ c ∈ u, c < 1114112) →
      (peek rest 0 = 0 ∨ peek rest 0 = 32 ∨ peek rest 0 = 9 ∨
        peek rest 0 = 44 ∨ peek rest 0 = 61) →
      (opl_encode u).length < fuel →
      opl_parse_string (opl_encode u ++ rest) fuel 0 =
        .ok (utf8encode u, (opl_encode u).length)) ∧
    (∀ (bs rest : List Nat) (fuel : Nat),
      (∀ b ∈ bs, b ≠ 0 ∧ b ≠ 32 ∧ b ≠ 9 ∧ b ≠ 44 ∧ b ≠ 61 ∧ b ≠ 37) →
      (peek rest 0 = 0 ∨ peek rest 0 = 32 ∨ peek rest 0 = 9 ∨
        peek rest 0 = 44 ∨ peek rest 0 = 61) →
      bs.length < fuel →
      opl_parse_string (bs ++ rest) fuel 0 = .ok (bs, bs.length)) := by
  constructor
  · intro u rest fuel hcp hterm hlen
    have h := opl_parse_string_go_encode u [] rest [] fuel hcp hterm hlen
    simpa [opl_parse_string] using h
  · intro bs rest fuel hok hterm hlen
    have h := opl_parse_string_go_verbatim bs [] rest [] fuel hok hterm hlen
    simpa [opl_parse_string] using h

/-- C8, witness: the string `Caf` followed by U+00E9 encodes to
`Caf%E9%`, and parsing that back yields the UTF-8 bytes of "Café" with the
cursor on the terminating space. -/
theorem opl_parse_string_roundtrip_witness :
    opl_parse_string (opl_encode [67, 97, 102, 233] ++ [32]) 30 0 =
      .ok (utf8encode [67, 97, 102, 233], (opl_encode [67, 97, 102, 233]).length) :=
  opl_parse_string_roundtrip.1 [67, 97, 102, 233] [32] 30
    (by decide) (by decide) (by decide)

end Opl
